import Mathlib

/-!
Verification of the BattleBoats protocol stack: a shallow embedding of the
repository's C sources (Message.c, Agent.c, Field.c) together with the
Negotiation module (modelled from the spec, since Negotiation.c is not among
the sources), and proofs of the specification's claims about them.

Bytes and C strings are modelled as `Nat` values (ASCII codes) and
`List Nat` respectively; machine-integer truncation is written explicitly
(`% 256`, `% 65536`, `% 4294967296`) at the points where the C types impose
it.
-/

namespace BattleBoats

/-! ### ASCII byte-classification helpers (ctype.h semantics) -/

/-- C `isspace`: space, tab, newline, vertical tab, form feed, carriage
return. -/
def isSpaceB (c : Nat) : Bool :=
  decide (c = 32 ∨ (9 ≤ c ∧ c ≤ 13))

/-- C `isdigit`. -/
def isDigitB (c : Nat) : Bool :=
  decide (48 ≤ c ∧ c ≤ 57)

/-- C `isxdigit`: a decimal digit or a hexadecimal letter of either case. -/
def isXDigitB (c : Nat) : Bool :=
  isDigitB c || decide (65 ≤ c ∧ c ≤ 70) || decide (97 ≤ c ∧ c ≤ 102)

/-- Numeric value of a hexadecimal digit byte. -/
def hexVal (c : Nat) : Nat :=
  if c ≤ 57 then c - 48 else if c ≤ 70 then c - 55 else c - 87

/-! ### Decimal and hexadecimal rendering (printf `%u` / `%02X`) -/

/-- Digit-emission loop for decimal rendering, structurally recursive on a
fuel bound so that it evaluates inside the kernel; `fuel > n` suffices. -/
def natToDecAux : Nat → Nat → List Nat → List Nat
  | 0, _, acc => acc
  | fuel + 1, n, acc =>
    if n < 10 then (48 + n) :: acc
    else natToDecAux fuel (n / 10) ((48 + n % 10) :: acc)

/-- Decimal digits (ASCII bytes) of `n`, most significant first; mirrors what
`printf("%u", n)` emits for a non-negative value. -/
def natToDec (n : Nat) : List Nat :=
  natToDecAux (n + 1) n []

/-- Numeric value of a list of decimal digit bytes. -/
def decVal (ds : List Nat) : Nat :=
  ds.foldl (fun a c => a * 10 + (c - 48)) 0

/-- Numeric value of a list of hexadecimal digit bytes. -/
def hexValList (ds : List Nat) : Nat :=
  ds.foldl (fun a c => a * 16 + hexVal c) 0

/-- Uppercase hexadecimal digit byte for a value below 16. -/
def hexDigU (d : Nat) : Nat :=
  if d < 10 then 48 + d else 55 + d

/-- The two uppercase hexadecimal digit bytes `printf("%02X", n)` emits for a
`uint8_t` value. -/
def hex2 (n : Nat) : List Nat :=
  [hexDigU (n % 256 / 16), hexDigU (n % 16)]

/-! ### Message and event data model

`Message.h` and `BattleBoats.h` are not among the sources; the `Message` and
`BB_Event` structs and their enums are modelled from the spec (section 3):
a tagged payload with up to three unsigned 16-bit parameters, and its decoded
counterpart plus the local-only event variants. -/

inductive MessageType where
  | MESSAGE_NONE
  | MESSAGE_CHA
  | MESSAGE_ACC
  | MESSAGE_REV
  | MESSAGE_SHO
  | MESSAGE_RES
deriving DecidableEq, Repr

export MessageType (MESSAGE_NONE MESSAGE_CHA MESSAGE_ACC MESSAGE_REV MESSAGE_SHO MESSAGE_RES)

structure Message where
  type : MessageType
  param0 : Nat := 0
  param1 : Nat := 0
  param2 : Nat := 0
deriving DecidableEq, Repr

inductive BBEventType where
  | BB_EVENT_NO_EVENT
  | BB_EVENT_ERROR
  | BB_EVENT_CHA_RECEIVED
  | BB_EVENT_ACC_RECEIVED
  | BB_EVENT_REV_RECEIVED
  | BB_EVENT_SHO_RECEIVED
  | BB_EVENT_RES_RECEIVED
  | BB_EVENT_RESET_BUTTON
  | BB_EVENT_START_BUTTON
  | BB_EVENT_MESSAGE_SENT
deriving DecidableEq, Repr

export BBEventType (BB_EVENT_NO_EVENT BB_EVENT_ERROR BB_EVENT_CHA_RECEIVED
  BB_EVENT_ACC_RECEIVED BB_EVENT_REV_RECEIVED BB_EVENT_SHO_RECEIVED
  BB_EVENT_RES_RECEIVED BB_EVENT_RESET_BUTTON BB_EVENT_START_BUTTON
  BB_EVENT_MESSAGE_SENT)

structure BBEvent where
  type : BBEventType
  param0 : Nat := 0
  param1 : Nat := 0
  param2 : Nat := 0
deriving DecidableEq, Repr

/-! ### Message.c: checksum -/

/-- `Message_CalculateChecksum`: exclusive-OR of the payload bytes (each a
`uint8_t`). -/
def Message_CalculateChecksum (payload : List Nat) : Nat :=
  payload.foldl (fun a c => a ^^^ (c % 256)) 0

/-! ### scanf-style combinators

`Message_ParseMessage` in the C source is written with `sscanf`; these
combinators embed the conversions it uses (`%2X`, `%3s`, `%u`, `%d` and
literal bytes) with C `scanf` matching semantics: leading whitespace is
skipped before a conversion, an optional sign is accepted, a field width
bounds the characters consumed, unsigned conversions wrap modulo 2^32, and a
non-whitespace literal in the format must match the next input byte
exactly. -/

/-- Greedy run of decimal digits, converted with `unsigned int` wrap-around;
fails when no digit is present. -/
def scanfUDigits (t : List Nat) : Option (Nat × List Nat) :=
  let ds := t.takeWhile isDigitB
  if ds.isEmpty then none
  else some (decVal ds % 4294967296, t.dropWhile isDigitB)

/-- The `%u` conversion. -/
def scanfU (s : List Nat) : Option (Nat × List Nat) :=
  let t := s.dropWhile isSpaceB
  match t with
  | c :: rest =>
    if c = 43 then scanfUDigits rest
    else if c = 45 then
      (scanfUDigits rest).map
        (fun vr => ((4294967296 - vr.1 % 4294967296) % 4294967296, vr.2))
    else scanfUDigits (c :: rest)
  | [] => none

/-- Greedy run of decimal digits converted as a signed value; fails when no
digit is present. -/
def scanfDDigits (t : List Nat) : Option (Int × List Nat) :=
  let ds := t.takeWhile isDigitB
  if ds.isEmpty then none
  else some ((decVal ds : Int), t.dropWhile isDigitB)

/-- The `%d` conversion (the values exchanged by the protocol fit in `int`,
so signed overflow does not arise). -/
def scanfD (s : List Nat) : Option (Int × List Nat) :=
  let t := s.dropWhile isSpaceB
  match t with
  | c :: rest =>
    if c = 43 then scanfDDigits rest
    else if c = 45 then (scanfDDigits rest).map (fun vr => (-vr.1, vr.2))
    else scanfDDigits (c :: rest)
  | [] => none

/-- Up to `w` hexadecimal digits converted with `unsigned int` wrap-around;
fails when no hex digit is present. -/
def scanfXDigits (w : Nat) (t : List Nat) : Option (Nat × List Nat) :=
  let ds := (t.takeWhile isXDigitB).take w
  if ds.isEmpty then none
  else some (hexValList ds % 4294967296, t.drop ds.length)

/-- The `%2X` conversion: a field width of two bytes, counting a sign byte
against the width, accepting hex digits of either case. -/
def scanfX2 (s : List Nat) : Option (Nat × List Nat) :=
  let t := s.dropWhile isSpaceB
  match t with
  | c :: rest =>
    if c = 43 then scanfXDigits 1 rest
    else if c = 45 then
      (scanfXDigits 1 rest).map
        (fun vr => ((4294967296 - vr.1 % 4294967296) % 4294967296, vr.2))
    else scanfXDigits 2 (c :: rest)
  | [] => none

/-- The `%3s` conversion: skip whitespace, then up to three non-whitespace
bytes; fails when the input is exhausted. -/
def scanf3s (s : List Nat) : Option (List Nat) :=
  let t := s.dropWhile isSpaceB
  let tok := (t.takeWhile (fun c => !isSpaceB c)).take 3
  if tok.isEmpty then none else some tok

/-- Match a run of literal format bytes against the input. -/
def stripLitB : List Nat → List Nat → Option (List Nat)
  | [], s => some s
  | _ :: _, [] => none
  | l :: ls, c :: cs => if c = l then stripLitB ls cs else none

/-- `unsigned int` value of an `int`, as produced by a C cast. -/
def u32ofInt (i : Int) : Nat :=
  (i % 4294967296).toNat

/-! ### Message.c: Message_ParseMessage -/

/-- ASCII bytes of the tag `CHA`. -/
def tagCHA : List Nat := [67, 72, 65]

/-- ASCII bytes of the tag `ACC`. -/
def tagACC : List Nat := [65, 67, 67]

/-- ASCII bytes of the tag `REV`. -/
def tagREV : List Nat := [82, 69, 86]

/-- ASCII bytes of the tag `SHO`. -/
def tagSHO : List Nat := [83, 72, 79]

/-- ASCII bytes of the tag `RES`. -/
def tagRES : List Nat := [82, 69, 83]

/-- Shorthand for the error result of `Message_ParseMessage`: the event's
type is set to `BB_EVENT_ERROR` and `STANDARD_ERROR` (here `false`) is
returned. -/
def parseErr (ev : BBEvent) : Bool × BBEvent :=
  (false, { ev with type := BB_EVENT_ERROR })

/-- `Message_ParseMessage`: checks the checksum string's length, parses it
with `%2X`, compares it (as a `uint8_t`) with the computed checksum, reads
the first three payload bytes with `%3s` and dispatches on the tag; each
branch re-scans the payload against its template (`CHA,%u`, `ACC,%u`,
`REV,%u`, `SHO,%d,%d`, `RES,%u,%u,%u`).  Event parameters are `uint16_t`
fields, hence the `% 65536`.  Returns `(SUCCESS?, event)`. -/
def Message_ParseMessage (payload checksum_string : List Nat) (ev : BBEvent) :
    Bool × BBEvent :=
  if checksum_string.length ≠ 2 then parseErr ev
  else
    let computed := Message_CalculateChecksum payload
    match scanfX2 checksum_string with
    | none => parseErr ev
    | some pc =>
      if computed ≠ pc.1 % 256 then parseErr ev
      else
        match scanf3s payload with
        | none => parseErr ev
        | some tok =>
          if tok = tagCHA then
            match stripLitB (tagCHA ++ [44]) payload with
            | some rest =>
              match scanfU rest with
              | some p0 =>
                (true, { ev with type := BB_EVENT_CHA_RECEIVED,
                                 param0 := p0.1 % 65536 })
              | none => parseErr ev
            | none => parseErr ev
          else if tok = tagACC then
            match stripLitB (tagACC ++ [44]) payload with
            | some rest =>
              match scanfU rest with
              | some p0 =>
                (true, { ev with type := BB_EVENT_ACC_RECEIVED,
                                 param0 := p0.1 % 65536 })
              | none => parseErr ev
            | none => parseErr ev
          else if tok = tagREV then
            match stripLitB (tagREV ++ [44]) payload with
            | some rest =>
              match scanfU rest with
              | some p0 =>
                (true, { ev with type := BB_EVENT_REV_RECEIVED,
                                 param0 := p0.1 % 65536 })
              | none => parseErr ev
            | none => parseErr ev
          else if tok = tagSHO then
            match stripLitB (tagSHO ++ [44]) payload with
            | some r1 =>
              match scanfD r1 with
              | some rowr =>
                match stripLitB [44] rowr.2 with
                | some r2 =>
                  match scanfD r2 with
                  | some colr =>
                    (true, { ev with type := BB_EVENT_SHO_RECEIVED,
                                     param0 := u32ofInt rowr.1 % 65536,
                                     param1 := u32ofInt colr.1 % 65536 })
                  | none => parseErr ev
                | none => parseErr ev
              | none => parseErr ev
            | none => parseErr ev
          else if tok = tagRES then
            match stripLitB (tagRES ++ [44]) payload with
            | some r1 =>
              match scanfU r1 with
              | some rowr =>
                match stripLitB [44] rowr.2 with
                | some r2 =>
                  match scanfU r2 with
                  | some colr =>
                    match stripLitB [44] colr.2 with
                    | some r3 =>
                      match scanfU r3 with
                      | some resr =>
                        (true, { ev with type := BB_EVENT_RES_RECEIVED,
                                         param0 := rowr.1 % 65536,
                                         param1 := colr.1 % 65536,
                                         param2 := resr.1 % 65536 })
                      | none => parseErr ev
                    | none => parseErr ev
                  | none => parseErr ev
                | none => parseErr ev
              | none => parseErr ev
            | none => parseErr ev
          else parseErr ev

/-! ### Message.c: Message_Encode -/

/-- Wrap a payload as `$<payload>*<CC>\r\n` (the `MESSAGE_TEMPLATE`). -/
def wrapFrame (p : List Nat) : List Nat :=
  36 :: (p ++ 42 :: (hex2 (Message_CalculateChecksum p) ++ [13, 10]))

/-- The payload `Message_Encode` renders for a non-`NONE` message; message
parameters are `uint16_t` fields, hence the `% 65536`.  (The rendered
payload is at most 21 bytes, far below the 76-byte buffer, so the
`snprintf` bound never truncates.) -/
def payloadOf (m : Message) : List Nat :=
  match m.type with
  | MESSAGE_NONE => []
  | MESSAGE_CHA => tagCHA ++ 44 :: natToDec (m.param0 % 65536)
  | MESSAGE_ACC => tagACC ++ 44 :: natToDec (m.param0 % 65536)
  | MESSAGE_REV => tagREV ++ 44 :: natToDec (m.param0 % 65536)
  | MESSAGE_SHO =>
      tagSHO ++ 44 :: (natToDec (m.param0 % 65536) ++
        44 :: natToDec (m.param1 % 65536))
  | MESSAGE_RES =>
      tagRES ++ 44 :: (natToDec (m.param0 % 65536) ++
        44 :: (natToDec (m.param1 % 65536) ++
          44 :: natToDec (m.param2 % 65536)))

/-- `Message_Encode`: the empty byte sequence for `MESSAGE_NONE`, otherwise
the checksummed frame around the type-specific payload. -/
def Message_Encode (m : Message) : List Nat :=
  match m.type with
  | MESSAGE_NONE => []
  | _ => wrapFrame (payloadOf m)

/-! ### Message.c: the streaming decoder

The decoder's static state: the `DecodeState` enum, the payload and checksum
buffers (modelled as the lists of bytes written so far; the buffers are
null-terminated in C and written sequentially from index 0 after the reset
on `$`, so the buffer content is exactly the list of appended bytes), and
the two indices.  `payload_index` always equals the number of payload bytes
recorded; `checksum_index` additionally counts the `\r` terminator. -/

inductive DState where
  | WAIT_FOR_START_DELIMITER
  | RECORDING_PAYLOAD
  | RECORDING_CHECKSUM
deriving DecidableEq, Repr

export DState (WAIT_FOR_START_DELIMITER RECORDING_PAYLOAD RECORDING_CHECKSUM)

structure DecodeSt where
  state : DState
  payload : List Nat
  payloadIdx : Nat
  csum : List Nat
  csumIdx : Nat
deriving DecidableEq, Repr

/-- The decoder's state at program start (`decode_state` initialised to
`WAIT_FOR_START_DELIMITER`, buffers zeroed). -/
def dInit : DecodeSt :=
  ⟨WAIT_FOR_START_DELIMITER, [], 0, [], 0⟩

/-- Result of one `Message_Decode` call: the updated static state, the
caller's event struct as modified by the call, the return value (`true` for
`SUCCESS`), and — as instrumentation for the framing claims — the arguments
of the `Message_ParseMessage` call when one was made. -/
structure DecodeRes where
  st : DecodeSt
  ev : BBEvent
  ok : Bool
  parsed : Option (List Nat × List Nat)
deriving Repr

/-- `MESSAGE_MAX_PAYLOAD_LEN` = 82 − 6. -/
def MESSAGE_MAX_PAYLOAD_LEN : Nat := 76

/-- `Message_Decode`: consume one input byte.  Error paths set the event
type to `BB_EVENT_ERROR` and return to `WAIT_FOR_START_DELIMITER` (the
buffers are cleared only by the next `$`). -/
def Message_Decode (st : DecodeSt) (ev : BBEvent) (c : Nat) : DecodeRes :=
  match st.state with
  | WAIT_FOR_START_DELIMITER =>
    if c = 36 then
      ⟨⟨RECORDING_PAYLOAD, [], 0, [], 0⟩,
        { ev with type := BB_EVENT_NO_EVENT }, true, none⟩
    else
      ⟨st, { ev with type := BB_EVENT_NO_EVENT }, true, none⟩
  | RECORDING_PAYLOAD =>
    if c = 42 then
      ⟨{ st with state := RECORDING_CHECKSUM },
        { ev with type := BB_EVENT_NO_EVENT }, true, none⟩
    else if c = 13 ∨ c = 36 then
      ⟨{ st with state := WAIT_FOR_START_DELIMITER },
        { ev with type := BB_EVENT_ERROR }, false, none⟩
    else if st.payloadIdx ≥ MESSAGE_MAX_PAYLOAD_LEN then
      ⟨{ st with state := WAIT_FOR_START_DELIMITER },
        { ev with type := BB_EVENT_ERROR }, false, none⟩
    else
      ⟨{ st with payload := st.payload ++ [c], payloadIdx := st.payloadIdx + 1 },
        { ev with type := BB_EVENT_NO_EVENT }, true, none⟩
  | RECORDING_CHECKSUM =>
    if st.csumIdx < 2 then
      if isXDigitB c then
        ⟨{ st with csum := st.csum ++ [c], csumIdx := st.csumIdx + 1 },
          { ev with type := BB_EVENT_NO_EVENT }, true, none⟩
      else
        ⟨{ st with state := WAIT_FOR_START_DELIMITER },
          { ev with type := BB_EVENT_ERROR }, false, none⟩
    else if st.csumIdx = 2 then
      if c = 13 then
        ⟨{ st with csumIdx := 3 },
          { ev with type := BB_EVENT_NO_EVENT }, true, none⟩
      else
        ⟨{ st with state := WAIT_FOR_START_DELIMITER },
          { ev with type := BB_EVENT_ERROR }, false, none⟩
    else if st.csumIdx = 3 then
      if c = 10 then
        let pr := Message_ParseMessage st.payload st.csum ev
        ⟨{ st with state := WAIT_FOR_START_DELIMITER },
          (if pr.1 then pr.2 else { pr.2 with type := BB_EVENT_ERROR }),
          pr.1, some (st.payload, st.csum)⟩
      else
        ⟨{ st with state := WAIT_FOR_START_DELIMITER },
          { ev with type := BB_EVENT_ERROR }, false, none⟩
    else
      ⟨{ st with state := WAIT_FOR_START_DELIMITER },
        { ev with type := BB_EVENT_ERROR }, false, none⟩

/-- Result of feeding a byte sequence through the decoder: final state,
final event struct, the event produced at each byte (in order), and the
arguments of every `Message_ParseMessage` invocation made along the way. -/
structure DecodeRunRes where
  st : DecodeSt
  ev : BBEvent
  events : List BBEvent
  parses : List (List Nat × List Nat)
deriving Repr

/-- Feed a byte sequence through `Message_Decode`, one byte per call,
threading the static state and the caller's event struct. -/
def decodeRun (st : DecodeSt) (ev : BBEvent) : List Nat → DecodeRunRes
  | [] => ⟨st, ev, [], []⟩
  | c :: cs =>
    let r := Message_Decode st ev c
    let rest := decodeRun r.st r.ev cs
    ⟨rest.st, rest.ev, r.ev :: rest.events,
      (match r.parsed with
       | some p => p :: rest.parses
       | none => rest.parses)⟩

/-! ### Negotiation

Negotiation.c is not among the sources (only its tests and callers are);
the following definitions are modelled from the spec. -/

inductive NegotiationOutcome where
  | HEADS
  | TAILS
deriving DecidableEq, Repr

export NegotiationOutcome (HEADS TAILS)

/-- Modelled from the spec: the fixed 16-bit public modulus shared by both
peers.  `0xBEEF` is the unique value consistent with the spec's worked
example `commit(12345) = 43182` for a modular-squaring commitment. -/
def PUBLIC_KEY : Nat := 0xBEEF

/-- Modelled from the spec: `commit` is "square the secret modulo a fixed
public 16-bit modulus", consistent with `commit(3) = 9` and
`commit(12345) = 43182`. -/
def NegotiationHash (secret : Nat) : Nat :=
  secret * secret % PUBLIC_KEY

/-- Modelled from the spec: `verify(secret, commitment)` is true iff
`commit(secret) == commitment`. -/
def NegotiationVerify (secret commitment : Nat) : Bool :=
  NegotiationHash secret == commitment

/-- Parity (0 or 1) of the number of set bits of a 16-bit value, folded bit
by bit as the reference loop in NegotiationTest.c computes it. -/
def popParity (n : Nat) : Nat :=
  (List.range 16).foldl (fun a i => a ^^^ (n / 2 ^ i % 2)) 0

/-- Modelled from the spec: `coinFlip(A, B)` is `HEADS` iff the population
count of `A XOR B` is odd, else `TAILS`.  The operands are
`NegotiationData` (`uint16_t`) values, hence the masks. -/
def NegotiateCoinFlip (a b : Nat) : NegotiationOutcome :=
  if popParity (a % 65536 ^^^ b % 65536) = 1 then HEADS else TAILS

/-! ### Field.c

The grid is a 6×10 matrix of square-status codes.  `Field.h` is not among
the sources; the enum codes below are modelled from the spec's data model —
only their distinctness matters to the claims — and the boat sizes are the
values the lives initialisation in `FieldInit` and the lengths in
`FieldAddBoat` share. -/

def FIELD_ROWS : Nat := 6

def FIELD_COLS : Nat := 10

def FIELD_SQUARE_EMPTY : Nat := 0

def FIELD_SQUARE_SMALL_BOAT : Nat := 1

def FIELD_SQUARE_MEDIUM_BOAT : Nat := 2

def FIELD_SQUARE_LARGE_BOAT : Nat := 3

def FIELD_SQUARE_HUGE_BOAT : Nat := 4

def FIELD_SQUARE_UNKNOWN : Nat := 5

def FIELD_SQUARE_HIT : Nat := 6

def FIELD_SQUARE_MISS : Nat := 7

def FIELD_SQUARE_CURSOR : Nat := 8

def FIELD_SQUARE_INVALID : Nat := 9

def FIELD_BOAT_SIZE_SMALL : Nat := 3

def FIELD_BOAT_SIZE_MEDIUM : Nat := 4

def FIELD_BOAT_SIZE_LARGE : Nat := 5

def FIELD_BOAT_SIZE_HUGE : Nat := 6

def FIELD_BOAT_STATUS_SMALL : Nat := 1

def FIELD_BOAT_STATUS_MEDIUM : Nat := 2

def FIELD_BOAT_STATUS_LARGE : Nat := 4

def FIELD_BOAT_STATUS_HUGE : Nat := 8

def RESULT_MISS : Nat := 0

def RESULT_HIT : Nat := 1

def RESULT_SMALL_BOAT_SUNK : Nat := 2

def RESULT_MEDIUM_BOAT_SUNK : Nat := 3

def RESULT_LARGE_BOAT_SUNK : Nat := 4

def RESULT_HUGE_BOAT_SUNK : Nat := 5

inductive BoatDirection where
  | FIELD_DIR_SOUTH
  | FIELD_DIR_EAST
deriving DecidableEq, Repr

export BoatDirection (FIELD_DIR_SOUTH FIELD_DIR_EAST)

inductive BoatType where
  | FIELD_BOAT_TYPE_SMALL
  | FIELD_BOAT_TYPE_MEDIUM
  | FIELD_BOAT_TYPE_LARGE
  | FIELD_BOAT_TYPE_HUGE
deriving DecidableEq, Repr

export BoatType (FIELD_BOAT_TYPE_SMALL FIELD_BOAT_TYPE_MEDIUM
  FIELD_BOAT_TYPE_LARGE FIELD_BOAT_TYPE_HUGE)

structure Field where
  grid : List (List Nat)
  smallBoatLives : Nat
  mediumBoatLives : Nat
  largeBoatLives : Nat
  hugeBoatLives : Nat
deriving DecidableEq, Repr

structure GuessData where
  row : Nat
  col : Nat
  result : Nat
deriving DecidableEq, Repr

/-- Read `f->grid[r][c]` (callers establish the bounds before reading). -/
def getSq (f : Field) (r c : Nat) : Nat :=
  (f.grid.getD r []).getD c 0

/-- Write `f->grid[r][c] = v`. -/
def setSq (f : Field) (r c : Nat) (v : Nat) : Field :=
  { f with grid := f.grid.set r ((f.grid.getD r []).set c v) }

/-- Read `grid[r][c]` with `int` indices, as the targeting code does without
a lower-bound check; a negative index is an out-of-bounds read (undefined
behaviour in C), modelled as `FIELD_SQUARE_INVALID`, which in particular is
never `FIELD_SQUARE_UNKNOWN`.  No theorem below exercises this path. -/
def getSqI (f : Field) (r c : Int) : Nat :=
  if r < 0 ∨ c < 0 then FIELD_SQUARE_INVALID else getSq f r.toNat c.toNat

/-- `FieldInit`: own grid all `EMPTY` with zero lives; opponent grid all
`UNKNOWN` with full lives.  Returns `(ownField, oppField)`. -/
def FieldInit : Field × Field :=
  (⟨List.replicate FIELD_ROWS (List.replicate FIELD_COLS FIELD_SQUARE_EMPTY),
      0, 0, 0, 0⟩,
   ⟨List.replicate FIELD_ROWS (List.replicate FIELD_COLS FIELD_SQUARE_UNKNOWN),
      FIELD_BOAT_SIZE_SMALL, FIELD_BOAT_SIZE_MEDIUM, FIELD_BOAT_SIZE_LARGE,
      FIELD_BOAT_SIZE_HUGE⟩)

/-- Row of the `i`-th square of a boat anchored at `(row, col)`. -/
def boatRow (row : Nat) (dir : BoatDirection) (i : Nat) : Nat :=
  row + (if dir = FIELD_DIR_SOUTH then i else 0)

/-- Column of the `i`-th square of a boat anchored at `(row, col)`. -/
def boatCol (col : Nat) (dir : BoatDirection) (i : Nat) : Nat :=
  col + (if dir = FIELD_DIR_EAST then i else 0)

/-- `FieldAddBoat`: bounds check, overlap check, then place the squares and
add the boat's length to its lives counter.  `none` is `STANDARD_ERROR`
(field unmodified). -/
def FieldAddBoat (f : Field) (row col : Nat) (dir : BoatDirection)
    (t : BoatType) : Option Field :=
  let length :=
    match t with
    | FIELD_BOAT_TYPE_SMALL => FIELD_BOAT_SIZE_SMALL
    | FIELD_BOAT_TYPE_MEDIUM => FIELD_BOAT_SIZE_MEDIUM
    | FIELD_BOAT_TYPE_LARGE => FIELD_BOAT_SIZE_LARGE
    | FIELD_BOAT_TYPE_HUGE => FIELD_BOAT_SIZE_HUGE
  let boatStatus :=
    match t with
    | FIELD_BOAT_TYPE_SMALL => FIELD_SQUARE_SMALL_BOAT
    | FIELD_BOAT_TYPE_MEDIUM => FIELD_SQUARE_MEDIUM_BOAT
    | FIELD_BOAT_TYPE_LARGE => FIELD_SQUARE_LARGE_BOAT
    | FIELD_BOAT_TYPE_HUGE => FIELD_SQUARE_HUGE_BOAT
  if (dir = FIELD_DIR_EAST ∧ col + length > FIELD_COLS) ∨
      (dir = FIELD_DIR_SOUTH ∧ row + length > FIELD_ROWS) then none
  else if ¬ ((List.range length).all fun i =>
      getSq f (boatRow row dir i) (boatCol col dir i) == FIELD_SQUARE_EMPTY)
  then none
  else
    let f1 := (List.range length).foldl
      (fun g i => setSq g (boatRow row dir i) (boatCol col dir i) boatStatus) f
    some (match t with
      | FIELD_BOAT_TYPE_SMALL =>
          { f1 with smallBoatLives := f1.smallBoatLives + length }
      | FIELD_BOAT_TYPE_MEDIUM =>
          { f1 with mediumBoatLives := f1.mediumBoatLives + length }
      | FIELD_BOAT_TYPE_LARGE =>
          { f1 with largeBoatLives := f1.largeBoatLives + length }
      | FIELD_BOAT_TYPE_HUGE =>
          { f1 with hugeBoatLives := f1.hugeBoatLives + length })

/-- `FieldRegisterEnemyAttack`: registers an opponent shot on our own
field, returning the updated field, the guess with its `result` filled in,
and the square's prior status. -/
def FieldRegisterEnemyAttack (f : Field) (g : GuessData) :
    Field × GuessData × Nat :=
  if g.row ≥ FIELD_ROWS ∨ g.col ≥ FIELD_COLS then
    (f, { g with result := RESULT_MISS }, FIELD_SQUARE_INVALID)
  else
    let current := getSq f g.row g.col
    if current = FIELD_SQUARE_SMALL_BOAT then
      let lives := f.smallBoatLives - 1
      let f1 := { setSq f g.row g.col FIELD_SQUARE_HIT with smallBoatLives := lives }
      (f1, { g with result := if lives = 0 then RESULT_SMALL_BOAT_SUNK else RESULT_HIT },
        current)
    else if current = FIELD_SQUARE_MEDIUM_BOAT then
      let lives := f.mediumBoatLives - 1
      let f1 := { setSq f g.row g.col FIELD_SQUARE_HIT with mediumBoatLives := lives }
      (f1, { g with result := if lives = 0 then RESULT_MEDIUM_BOAT_SUNK else RESULT_HIT },
        current)
    else if current = FIELD_SQUARE_LARGE_BOAT then
      let lives := f.largeBoatLives - 1
      let f1 := { setSq f g.row g.col FIELD_SQUARE_HIT with largeBoatLives := lives }
      (f1, { g with result := if lives = 0 then RESULT_LARGE_BOAT_SUNK else RESULT_HIT },
        current)
    else if current = FIELD_SQUARE_HUGE_BOAT then
      let lives := f.hugeBoatLives - 1
      let f1 := { setSq f g.row g.col FIELD_SQUARE_HIT with hugeBoatLives := lives }
      (f1, { g with result := if lives = 0 then RESULT_HUGE_BOAT_SUNK else RESULT_HIT },
        current)
    else if current = FIELD_SQUARE_EMPTY then
      (setSq f g.row g.col FIELD_SQUARE_MISS, { g with result := RESULT_MISS }, current)
    else
      (f, { g with result := RESULT_MISS }, current)

/-- `FieldUpdateKnowledge`: record a known hit/miss on the remembered
opponent field and clear a boat's lives on a sunk result; returns the
updated field and the square's prior status. -/
def FieldUpdateKnowledge (f : Field) (g : GuessData) : Field × Nat :=
  if g.row ≥ FIELD_ROWS ∨ g.col ≥ FIELD_COLS then (f, FIELD_SQUARE_INVALID)
  else
    let prev := getSq f g.row g.col
    let f1 :=
      if g.result = RESULT_HIT ∨ g.result = RESULT_SMALL_BOAT_SUNK ∨
          g.result = RESULT_MEDIUM_BOAT_SUNK ∨ g.result = RESULT_LARGE_BOAT_SUNK ∨
          g.result = RESULT_HUGE_BOAT_SUNK then
        setSq f g.row g.col FIELD_SQUARE_HIT
      else if g.result = RESULT_MISS then
        setSq f g.row g.col FIELD_SQUARE_MISS
      else f
    let f2 :=
      if g.result = RESULT_SMALL_BOAT_SUNK then { f1 with smallBoatLives := 0 }
      else if g.result = RESULT_MEDIUM_BOAT_SUNK then { f1 with mediumBoatLives := 0 }
      else if g.result = RESULT_LARGE_BOAT_SUNK then { f1 with largeBoatLives := 0 }
      else if g.result = RESULT_HUGE_BOAT_SUNK then { f1 with hugeBoatLives := 0 }
      else f1
    (f2, prev)

/-- `FieldGetBoatStates`: the 4-bit alive bitmask, small boat at the least
significant bit. -/
def FieldGetBoatStates (f : Field) : Nat :=
  (if f.smallBoatLives > 0 then FIELD_BOAT_STATUS_SMALL else 0) |||
  (if f.mediumBoatLives > 0 then FIELD_BOAT_STATUS_MEDIUM else 0) |||
  (if f.largeBoatLives > 0 then FIELD_BOAT_STATUS_LARGE else 0) |||
  (if f.hugeBoatLives > 0 then FIELD_BOAT_STATUS_HUGE else 0)

/-! ### Random stream

`rand()` is external (stdlib); it is modelled as an explicit stream of
values consumed in call order. -/

structure RandSt where
  seqf : Nat → Nat
  idx : Nat

/-- One `rand()` call. -/
def randNext (rs : RandSt) : Nat × RandSt :=
  (rs.seqf rs.idx, { rs with idx := rs.idx + 1 })

/-- The retry loop of `FieldAIPlaceAllBoats` for one boat: draw a random
anchor and direction until `FieldAddBoat` succeeds.  The C loop is
unbounded; `none` (fuel exhausted) models its divergence. -/
def placeOneBoat : Nat → Field → RandSt → BoatType → Option (Field × RandSt)
  | 0, _, _, _ => none
  | fuel + 1, f, rs, t =>
    let r1 := randNext rs
    let row := r1.1 % FIELD_ROWS
    let r2 := randNext r1.2
    let col := r2.1 % FIELD_COLS
    let r3 := randNext r2.2
    let dir := if r3.1 % 2 = 0 then FIELD_DIR_SOUTH else FIELD_DIR_EAST
    match FieldAddBoat f row col dir t with
    | some f1 => some (f1, r3.2)
    | none => placeOneBoat fuel f r3.2 t

/-- `FieldAIPlaceAllBoats`: place huge, large, medium, small in that order.
When it returns at all it returns `SUCCESS`, so `none` models the
(possible) divergence of a retry loop, never a failure result. -/
def FieldAIPlaceAllBoats (fuel : Nat) (f : Field) (rs : RandSt) :
    Option (Field × RandSt) :=
  match placeOneBoat fuel f rs FIELD_BOAT_TYPE_HUGE with
  | none => none
  | some a =>
    match placeOneBoat fuel a.1 a.2 FIELD_BOAT_TYPE_LARGE with
    | none => none
    | some b =>
      match placeOneBoat fuel b.1 b.2 FIELD_BOAT_TYPE_MEDIUM with
      | none => none
      | some c =>
        match placeOneBoat fuel c.1 c.2 FIELD_BOAT_TYPE_SMALL with
        | none => none
        | some d => some d

/-! ### FieldAIDecideGuess and its static state

The function-local statics of `FieldAIDecideGuess` (targeting mode,
orientation, direction, reverse flag, hit streak, origin, last guess).
They persist across calls and are never reset by `FieldInit` as written.
Note `lastGuess` is never written after initialisation anywhere in the
source. -/

structure AIState where
  targeting : Nat
  orientationKnown : Nat
  direction : Int
  reverse : Nat
  hitsInARow : Nat
  originRow : Nat
  originCol : Nat
  lastGuess : GuessData
deriving DecidableEq, Repr

/-- The statics' initial values. -/
def aiInit : AIState :=
  ⟨0, 0, -1, 0, 0, FIELD_ROWS, FIELD_COLS, ⟨0, 0, RESULT_MISS⟩⟩

/-- Row offset of the `directions` table (N, S, W, E). -/
def dRow (d : Nat) : Int :=
  match d with
  | 0 => -1
  | 1 => 1
  | _ => 0

/-- Column offset of the `directions` table (N, S, W, E). -/
def dCol (d : Nat) : Int :=
  match d with
  | 2 => -1
  | 3 => 1
  | _ => 0

/-- The sunk-boat reset of the targeting statics (origin included). -/
def aiSunkReset (s : AIState) : AIState :=
  { s with targeting := 0, orientationKnown := 0, direction := -1,
           reverse := 0, hitsInARow := 0,
           originRow := FIELD_ROWS, originCol := FIELD_COLS }

/-- The preamble of `FieldAIDecideGuess`: reset on a sunk last result,
enter/continue targeting on a hit last result. -/
def aiPre (s : AIState) : AIState :=
  let s1 :=
    if RESULT_SMALL_BOAT_SUNK ≤ s.lastGuess.result ∧
        s.lastGuess.result ≤ RESULT_HUGE_BOAT_SUNK
    then aiSunkReset s else s
  if s1.lastGuess.result = RESULT_HIT then
    let s2 :=
      if s1.targeting = 0 then
        { s1 with targeting := 1, originRow := s1.lastGuess.row,
                  originCol := s1.lastGuess.col }
      else s1
    { s2 with hitsInARow := s2.hitsInARow + 1 }
  else s1

/-- The orientation-unknown scan over the four adjacent squares; returns
the first direction whose neighbour is in bounds and unknown, with the
neighbour's coordinates. -/
def adjScan (s : AIState) (opp : Field) : Option (Nat × Nat × Nat) :=
  [0, 1, 2, 3].findSome? fun d =>
    let nr : Int := (s.originRow : Int) + dRow d
    let nc : Int := (s.originCol : Int) + dCol d
    if 0 ≤ nr ∧ nr < (FIELD_ROWS : Int) ∧ 0 ≤ nc ∧ nc < (FIELD_COLS : Int) ∧
        getSq opp nr.toNat nc.toNat = FIELD_SQUARE_UNKNOWN
    then some (d, nr.toNat, nc.toNat) else none

/-- Hunt mode: first unknown square at `(row+col) % 4 = 0` in row-major
order. -/
def huntFind (opp : Field) : Option (Nat × Nat) :=
  (List.range FIELD_ROWS).findSome? fun r =>
    ((List.range FIELD_COLS).find? fun c =>
        decide ((r + c) % 4 = 0) && (getSq opp r c == FIELD_SQUARE_UNKNOWN)).map
      fun c => (r, c)

/-- Fallback: first unknown square in row-major order. -/
def fallbackFind (opp : Field) : Option (Nat × Nat) :=
  (List.range FIELD_ROWS).findSome? fun r =>
    ((List.range FIELD_COLS).find? fun c =>
        getSq opp r c == FIELD_SQUARE_UNKNOWN).map
      fun c => (r, c)

/-- The hunt-mode (and fallback) guess.  When no square is unknown the C
code returns the local `guess` with uninitialised coordinates; that
unreachable case is modelled as `(0, 0)`. -/
def huntGuess (opp : Field) : GuessData :=
  match huntFind opp with
  | some rc => ⟨rc.1, rc.2, RESULT_MISS⟩
  | none =>
    match fallbackFind opp with
    | some rc => ⟨rc.1, rc.2, RESULT_MISS⟩
    | none => ⟨0, 0, RESULT_MISS⟩


/-- The known-direction attempt: the next square along the locked direction
(reversed when the reverse flag is set).  `none` means the square is out of
bounds or already resolved. -/
def aiKnownDirTry (s2 : AIState) (opp : Field) : Option GuessData :=
  let d : Nat := if s2.reverse ≠ 0 then s2.direction.toNat ^^^ 1
                 else s2.direction.toNat
  let off : Nat := s2.hitsInARow + (if s2.reverse ≠ 0 then 0 else 1)
  let nr : Int := (s2.originRow : Int) + dRow d * off
  let nc : Int := (s2.originCol : Int) + dCol d * off
  if nr < (FIELD_ROWS : Int) ∧ nc < (FIELD_COLS : Int) ∧
      getSqI opp nr nc = FIELD_SQUARE_UNKNOWN then
    some ⟨nr.toNat, nc.toNat, RESULT_MISS⟩
  else none

/-- Body of `FieldAIDecideGuess`, structurally recursive on a fuel bound so
that it evaluates inside the kernel.  The C function calls itself exactly
once after setting the reverse flag and that call re-runs the whole body
(preamble included) on the updated statics; the recursion cannot repeat
because the flag is then set (`fieldAIDecideGuessAux_no_recur` below), so
the fuel-0 default is unreachable from fuel 2
(`fieldAIDecideGuess_fuel_adequate` below). -/
def FieldAIDecideGuessAux : Nat → AIState → Field → AIState × GuessData
  | 0, s, opp => (s, huntGuess opp)
  | fuel + 1, s, opp =>
    let s2 := aiPre s
    if s2.targeting ≠ 0 then
      if s2.orientationKnown ≠ 0 ∧ s2.direction ≠ -1 then
        match aiKnownDirTry s2 opp with
        | some g => (s2, g)
        | none =>
          if s2.reverse = 0 then
            FieldAIDecideGuessAux fuel { s2 with reverse := 1 } opp
          else
            ({ s2 with targeting := 0, orientationKnown := 0,
                       direction := -1, reverse := 0, hitsInARow := 0 },
              huntGuess opp)
      else
        match adjScan s2 opp with
        | some res =>
          ({ s2 with orientationKnown := if res.1 ≤ 1 then 2 else 1,
                     direction := (res.1 : Int) },
            ⟨res.2.1, res.2.2, RESULT_MISS⟩)
        | none => ({ s2 with targeting := 0 }, huntGuess opp)
    else (s2, huntGuess opp)

/-- `FieldAIDecideGuess`: the target-mode / hunt-mode guess choice, at the
fuel that `fieldAIDecideGuess_fuel_adequate` shows is enough. -/
def FieldAIDecideGuess (s : AIState) (opp : Field) : AIState × GuessData :=
  FieldAIDecideGuessAux 2 s opp


/-! ### Agent.c

The agent's static state and its step function.  The OLED/printf/delay
calls carry no protocol state; the strings drawn with `OLED_DrawString`
during a step are collected in the result so the display side of the
claims can be stated.  `FieldOledDrawScreen` renders the grids and is kept
out of the model (pure display of state already present). -/

inductive AgentState where
  | AGENT_STATE_START
  | AGENT_STATE_CHALLENGING
  | AGENT_STATE_ACCEPTING
  | AGENT_STATE_ATTACKING
  | AGENT_STATE_DEFENDING
  | AGENT_STATE_WAITING_TO_SEND
  | AGENT_STATE_END_SCREEN
deriving DecidableEq, Repr

export AgentState (AGENT_STATE_START AGENT_STATE_CHALLENGING
  AGENT_STATE_ACCEPTING AGENT_STATE_ATTACKING AGENT_STATE_DEFENDING
  AGENT_STATE_WAITING_TO_SEND AGENT_STATE_END_SCREEN)

inductive FieldOledTurn where
  | FIELD_OLED_TURN_NONE
  | FIELD_OLED_TURN_MINE
  | FIELD_OLED_TURN_THEIRS
deriving DecidableEq, Repr

export FieldOledTurn (FIELD_OLED_TURN_NONE FIELD_OLED_TURN_MINE
  FIELD_OLED_TURN_THEIRS)

/-- The agent's static globals, together with the external-state the C
process carries implicitly: the position in the `rand()` stream and the
`FieldAIDecideGuess` statics. -/
structure AgentWorld where
  agentState : AgentState
  turn_counter : Nat
  oppField : Field
  ownField : Field
  A : Nat
  B : Nat
  hashA : Nat
  own_guess : GuessData
  playerTurn : FieldOledTurn
  turn_order : NegotiationOutcome
  endScreenDrawn : Bool
  rng : RandSt
  aiState : AIState

/-- Decimal rendering of a number inside a `sprintf`-built display
string. -/
def decStr (n : Nat) : String :=
  String.mk ((natToDec n).map Char.ofNat)

/-- The idle-screen text drawn on reset and in the START state. -/
def startText : String :=
  "BATTLEBOATS:\n\nPress BTN4 to begin\nor wait for PLAYER2."

/-- A `Message` of type `MESSAGE_NONE` (the initialiser of
`messageToSend`). -/
def msgNone : Message :=
  { type := MESSAGE_NONE }

/-- `AgentInit`: resets the agent state, the counters, the secrets and the
two fields.  Exactly as in the C, it does not touch `own_guess`,
`turn_order`, the `rand()` stream position, or the `FieldAIDecideGuess`
statics. -/
def AgentInitW (w : AgentWorld) : AgentWorld :=
  { w with agentState := AGENT_STATE_START, turn_counter := 0,
           A := 0, B := 0, hashA := 0,
           playerTurn := FIELD_OLED_TURN_NONE, endScreenDrawn := false,
           ownField := FieldInit.1, oppField := FieldInit.2 }

/-- `AgentRun`: one step of the agent state machine.  Returns the updated
world, the message to send, and the strings drawn during the step; `none`
models the (theoretical) divergence of the boat-placement retry loop,
bounded here by `fuel`. -/
def AgentRun (fuel : Nat) (w : AgentWorld) (event : BBEvent) :
    Option (AgentWorld × Message × List String) :=
  if event.type = BB_EVENT_RESET_BUTTON then
    some ({ AgentInitW w with agentState := AGENT_STATE_START }, msgNone,
      [startText])
  else
    match w.agentState with
    | AGENT_STATE_START =>
      if event.type = BB_EVENT_START_BUTTON then
        let r := randNext w.rng
        let a1 := r.1 % 65536
        let h1 := NegotiationHash a1
        let msg : Message := { type := MESSAGE_CHA, param0 := h1 }
        match FieldAIPlaceAllBoats fuel w.ownField r.2 with
        | none => none
        | some fr =>
          some ({ w with A := a1, hashA := h1, ownField := fr.1, rng := fr.2,
                         agentState := AGENT_STATE_CHALLENGING },
            msg,
            [startText,
             "CHALLENGING\n" ++ decStr a1 ++ " = A\n" ++ decStr h1 ++ " = hashA"])
      else if event.type = BB_EVENT_CHA_RECEIVED then
        let h1 := event.param0
        let r := randNext w.rng
        let b1 := r.1 % 65536
        let msg : Message := { type := MESSAGE_ACC, param0 := b1 }
        match FieldAIPlaceAllBoats fuel w.ownField r.2 with
        | none => none
        | some fr =>
          some ({ w with hashA := h1, B := b1, ownField := fr.1, rng := fr.2,
                         agentState := AGENT_STATE_ACCEPTING },
            msg,
            [startText,
             "ACCEPTING\n" ++ decStr h1 ++ " = hashA\n" ++ decStr b1 ++ " = B"])
      else some (w, msgNone, [startText])
    | AGENT_STATE_CHALLENGING =>
      if event.type = BB_EVENT_ACC_RECEIVED then
        let msg : Message := { type := MESSAGE_REV, param0 := w.A }
        let outc := NegotiateCoinFlip w.A event.param0
        if outc = HEADS then
          some ({ w with turn_order := outc, playerTurn := FIELD_OLED_TURN_MINE,
                         agentState := AGENT_STATE_WAITING_TO_SEND }, msg, [])
        else
          some ({ w with turn_order := outc, playerTurn := FIELD_OLED_TURN_THEIRS,
                         agentState := AGENT_STATE_DEFENDING }, msg, [])
      else some (w, msgNone, [])
    | AGENT_STATE_ACCEPTING =>
      if event.type = BB_EVENT_REV_RECEIVED then
        if ¬ NegotiationVerify event.param0 w.hashA then
          some ({ w with agentState := AGENT_STATE_END_SCREEN }, msgNone,
            ["ERROR: Cheating Detected"])
        else
          let outc := NegotiateCoinFlip event.param1 w.B
          let ag := FieldAIDecideGuess w.aiState w.oppField
          let msg : Message :=
            { type := MESSAGE_SHO, param0 := ag.2.row, param1 := ag.2.col }
          if outc = TAILS then
            some ({ w with turn_order := outc, aiState := ag.1, own_guess := ag.2,
                           playerTurn := FIELD_OLED_TURN_MINE,
                           agentState := AGENT_STATE_ATTACKING }, msg, [])
          else
            some ({ w with turn_order := outc, aiState := ag.1, own_guess := ag.2,
                           playerTurn := FIELD_OLED_TURN_THEIRS,
                           agentState := AGENT_STATE_DEFENDING }, msg, [])
      else some (w, msgNone, [])
    | AGENT_STATE_ATTACKING =>
      if event.type = BB_EVENT_RES_RECEIVED then
        let g := { w.own_guess with result := event.param2 }
        let fu := FieldUpdateKnowledge w.oppField g
        let oppState := FieldGetBoatStates fu.1
        if oppState = 0 then
          some ({ w with own_guess := g, oppField := fu.1,
                         agentState := AGENT_STATE_END_SCREEN }, msgNone,
            ["VICTORY"])
        else
          some ({ w with own_guess := g, oppField := fu.1,
                         agentState := AGENT_STATE_DEFENDING }, msgNone, [])
      else some (w, msgNone, [])
    | AGENT_STATE_DEFENDING =>
      if event.type = BB_EVENT_SHO_RECEIVED then
        let g0 : GuessData := ⟨event.param0, event.param1, 0⟩
        let fr := FieldRegisterEnemyAttack w.ownField g0
        let g1 := fr.2.1
        let msg : Message :=
          { type := MESSAGE_RES, param0 := g1.row, param1 := g1.col,
            param2 := g1.result }
        if FieldGetBoatStates fr.1 = 0 then
          some ({ w with ownField := fr.1,
                         agentState := AGENT_STATE_END_SCREEN }, msg, [])
        else
          some ({ w with ownField := fr.1,
                         agentState := AGENT_STATE_WAITING_TO_SEND }, msg, [])
      else some (w, msgNone, [])
    | AGENT_STATE_WAITING_TO_SEND =>
      if event.type = BB_EVENT_MESSAGE_SENT then
        let ag := FieldAIDecideGuess w.aiState w.oppField
        let msg : Message :=
          { type := MESSAGE_SHO, param0 := ag.2.row, param1 := ag.2.col }
        some ({ w with turn_counter := w.turn_counter + 1, aiState := ag.1,
                       own_guess := ag.2,
                       agentState := AGENT_STATE_ATTACKING }, msg, [])
      else some (w, msgNone, [])
    | AGENT_STATE_END_SCREEN =>
      if ¬ w.endScreenDrawn then
        let oppState := FieldGetBoatStates w.oppField
        let ownState := FieldGetBoatStates w.ownField
        let ds :=
          if oppState = 0 ∧ ownState ≠ 0 then ["VICTORY"]
          else if ownState = 0 ∧ oppState ≠ 0 then ["ALAS DEFEAT..."]
          else if ownState = 0 ∧ oppState = 0 then ["DRAW"]
          else []
        some ({ w with endScreenDrawn := true }, msgNone, ds)
      else some (w, msgNone, [])

/-- The event each state's branch of `AgentRun` reacts to (the reset event
is handled before the state dispatch and is not listed). -/
def handledEvent : AgentState → BBEventType → Bool
  | AGENT_STATE_START, BB_EVENT_START_BUTTON => true
  | AGENT_STATE_START, BB_EVENT_CHA_RECEIVED => true
  | AGENT_STATE_CHALLENGING, BB_EVENT_ACC_RECEIVED => true
  | AGENT_STATE_ACCEPTING, BB_EVENT_REV_RECEIVED => true
  | AGENT_STATE_ATTACKING, BB_EVENT_RES_RECEIVED => true
  | AGENT_STATE_DEFENDING, BB_EVENT_SHO_RECEIVED => true
  | AGENT_STATE_WAITING_TO_SEND, BB_EVENT_MESSAGE_SENT => true
  | _, _ => false

/-! ### Concrete fixtures used by the claim theorems -/

/-- A caller's event struct with all fields zeroed. -/
def evInit : BBEvent :=
  ⟨BB_EVENT_NO_EVENT, 0, 0, 0⟩

/-- An agent world parked in ACCEPTING right after initialisation, with
zero secrets and a zero random stream. -/
def wBase : AgentWorld :=
  { agentState := AGENT_STATE_ACCEPTING, turn_counter := 0,
    oppField := FieldInit.2, ownField := FieldInit.1,
    A := 0, B := 0, hashA := 0,
    own_guess := ⟨0, 0, 0⟩, playerTurn := FIELD_OLED_TURN_NONE,
    turn_order := TAILS, endScreenDrawn := false,
    rng := ⟨fun _ => 0, 0⟩, aiState := aiInit }

/-- The AI statics of `wMid`: targeting mode around origin (2,3). -/
def aiMid : AIState :=
  { aiInit with targeting := 1, originRow := 2, originCol := 3 }

/-- A mid-match world: defending, with non-zero secrets, a recorded last
guess, and the AI statics in targeting mode. -/
def wMid : AgentWorld :=
  { wBase with agentState := AGENT_STATE_DEFENDING,
               A := 7, B := 8, hashA := 9, turn_counter := 3,
               own_guess := ⟨4, 5, 1⟩, aiState := aiMid }

/-- The bytes of the payload `SHO,2,9`. -/
def shoPayload : List Nat :=
  [83, 72, 79, 44, 50, 44, 57]

/-- The bytes of the payload `CHA,1,2`. -/
def chaExtraPayload : List Nat :=
  [67, 72, 65, 44, 49, 44, 50]

/-- The decoder-state invariant. -/
def DInv (st : DecodeSt) : Prop :=
  st.payload.length = st.payloadIdx ∧ st.payloadIdx ≤ MESSAGE_MAX_PAYLOAD_LEN ∧
  st.csum.length = min st.csumIdx 2 ∧ st.csumIdx ≤ 3

/-- The amended claim's checksum condition: the checksum string parses
under `%2X` and its `uint8_t` value equals the computed XOR checksum. -/
def checksumMatches (payload cs : List Nat) : Bool :=
  match scanfX2 cs with
  | none => false
  | some pc => Message_CalculateChecksum payload == pc.1 % 256

/-- The amended claim's tag condition: the first `%3s` token is one of the
five recognised tags. -/
def recognizedTag (payload : List Nat) : Bool :=
  match scanf3s payload with
  | none => false
  | some tok =>
    (tok == tagCHA) || (tok == tagACC) || (tok == tagREV) ||
    (tok == tagSHO) || (tok == tagRES)

/-- The amended claim's field condition: the payload prefix-matches its
tag's template — the tag, the comma, and the declared number of fields all
scan; bytes after the declared fields are not examined. -/
def templateFieldsParse (payload : List Nat) : Bool :=
  match scanf3s payload with
  | none => false
  | some tok =>
    if tok = tagCHA then
      (match stripLitB (tagCHA ++ [44]) payload with
       | some rest => (scanfU rest).isSome
       | none => false)
    else if tok = tagACC then
      (match stripLitB (tagACC ++ [44]) payload with
       | some rest => (scanfU rest).isSome
       | none => false)
    else if tok = tagREV then
      (match stripLitB (tagREV ++ [44]) payload with
       | some rest => (scanfU rest).isSome
       | none => false)
    else if tok = tagSHO then
      (match stripLitB (tagSHO ++ [44]) payload with
       | some r1 =>
         match scanfD r1 with
         | some rowr =>
           (match stripLitB [44] rowr.2 with
            | some r2 => (scanfD r2).isSome
            | none => false)
         | none => false
       | none => false)
    else if tok = tagRES then
      (match stripLitB (tagRES ++ [44]) payload with
       | some r1 =>
         match scanfU r1 with
         | some rowr =>
           (match stripLitB [44] rowr.2 with
            | some r2 =>
              match scanfU r2 with
              | some colr =>
                (match stripLitB [44] colr.2 with
                 | some r3 => (scanfU r3).isSome
                 | none => false)
              | none => false
            | none => false)
         | none => false
       | none => false)
    else false


/-- The event a successful parse of `payloadOf m` must produce: the type
corresponding to `m.type`, with the template's parameters copied from `m`
and the caller's remaining fields untouched. -/
def expectedEvent (m : Message) (ev : BBEvent) : BBEvent :=
  match m.type with
  | MESSAGE_NONE => ev
  | MESSAGE_CHA => { ev with type := BB_EVENT_CHA_RECEIVED, param0 := m.param0 }
  | MESSAGE_ACC => { ev with type := BB_EVENT_ACC_RECEIVED, param0 := m.param0 }
  | MESSAGE_REV => { ev with type := BB_EVENT_REV_RECEIVED, param0 := m.param0 }
  | MESSAGE_SHO =>
      { ev with type := BB_EVENT_SHO_RECEIVED, param0 := m.param0,
                param1 := m.param1 }
  | MESSAGE_RES =>
      { ev with type := BB_EVENT_RES_RECEIVED, param0 := m.param0,
                param1 := m.param1, param2 := m.param2 }

/-- The event type a decoded message of each type must carry. -/
def eventTypeFor : MessageType → BBEventType
  | MESSAGE_NONE => BB_EVENT_NO_EVENT
  | MESSAGE_CHA => BB_EVENT_CHA_RECEIVED
  | MESSAGE_ACC => BB_EVENT_ACC_RECEIVED
  | MESSAGE_REV => BB_EVENT_REV_RECEIVED
  | MESSAGE_SHO => BB_EVENT_SHO_RECEIVED
  | MESSAGE_RES => BB_EVENT_RES_RECEIVED

/-- The decoded event carries the message's parameters, for the parameters
the message type's template declares. -/
def eventParamsMatch (m : Message) (e : BBEvent) : Prop :=
  match m.type with
  | MESSAGE_NONE => True
  | MESSAGE_CHA => e.param0 = m.param0
  | MESSAGE_ACC => e.param0 = m.param0
  | MESSAGE_REV => e.param0 = m.param0
  | MESSAGE_SHO => e.param0 = m.param0 ∧ e.param1 = m.param1
  | MESSAGE_RES =>
      e.param0 = m.param0 ∧ e.param1 = m.param1 ∧ e.param2 = m.param2

/-! ### Theorems

Everything below is a theorem: first the supporting lemmas about the
embedded definitions, then the claim theorems. -/

/-- When the preamble leaves targeting active, no sunk-boat reset happened,
so the reverse flag is the caller's. -/
theorem aiPre_reverse (s : AIState) (h : (aiPre s).targeting ≠ 0) :
    (aiPre s).reverse = s.reverse := by
  by_cases hs : RESULT_SMALL_BOAT_SUNK ≤ s.lastGuess.result ∧
      s.lastGuess.result ≤ RESULT_HUGE_BOAT_SUNK
  · exfalso
    apply h
    have hne : ¬ s.lastGuess.result = RESULT_HIT := by
      simp only [RESULT_SMALL_BOAT_SUNK, RESULT_HUGE_BOAT_SUNK] at hs
      simp only [RESULT_HIT]
      omega
    simp [aiPre, hs, aiSunkReset, hne]
  · have hd : ¬ (RESULT_SMALL_BOAT_SUNK ≤ RESULT_HIT ∧
        RESULT_HIT ≤ RESULT_HUGE_BOAT_SUNK) := by decide
    by_cases hh : s.lastGuess.result = RESULT_HIT
    · by_cases ht : s.targeting = 0
      · simp [aiPre, hs, hh, ht, hd]
      · simp [aiPre, hs, hh, ht, hd]
    · simp [aiPre, hs, hh]

/-- With the reverse flag already set the body never recurses, so any
non-zero fuel computes the same result. -/
theorem fieldAIDecideGuessAux_no_recur (s : AIState) (opp : Field)
    (hr : s.reverse ≠ 0) (fuel : Nat) :
    FieldAIDecideGuessAux (fuel + 1) s opp = FieldAIDecideGuessAux 1 s opp := by
  by_cases h1 : (aiPre s).targeting ≠ 0
  · have hrr := aiPre_reverse s h1
    have hrev : ¬ (aiPre s).reverse = 0 := by rw [hrr]; exact hr
    simp only [FieldAIDecideGuessAux, hrev, if_false]
  · simp only [FieldAIDecideGuessAux, h1, if_false]

/-- Fuel 2 computes the fixpoint: more fuel never changes the result. -/
theorem fieldAIDecideGuess_fuel_adequate (s : AIState) (opp : Field)
    (fuel : Nat) :
    FieldAIDecideGuessAux (fuel + 2) s opp = FieldAIDecideGuess s opp := by
  unfold FieldAIDecideGuess
  conv_lhs => rw [FieldAIDecideGuessAux]
  conv_rhs => rw [FieldAIDecideGuessAux]
  by_cases h1 : (aiPre s).targeting ≠ 0
  · by_cases h2 : (aiPre s).orientationKnown ≠ 0 ∧ (aiPre s).direction ≠ -1
    · cases hk : aiKnownDirTry (aiPre s) opp with
      | some g => simp only [if_pos h1, if_pos h2, hk]
      | none =>
        by_cases h3 : (aiPre s).reverse = 0
        · simp only [if_pos h1, if_pos h2, hk, if_pos h3]
          exact fieldAIDecideGuessAux_no_recur { aiPre s with reverse := 1 }
            opp (by simp) fuel
        · simp only [if_pos h1, if_pos h2, hk, if_neg h3]
    · simp only [if_pos h1, if_neg h2]
  · simp only [if_neg h1]

/-! ### Claim C1 -/

set_option maxHeartbeats 2000000 in
/-- Claim C1 (code bug): in ACCEPTING, on a verified REV_RECEIVED the claim
says the outcome is computed from the revealed secret in `param0` together
with `B`.  At the concrete input below the revealed secret is `param0 = 0`,
which verifies against `hashA = 0`, and `coinFlip(param0, B) =
coinFlip(0, 0) = TAILS`, so the claim requires a transition to ATTACKING —
but the code computes `NegotiateCoinFlip(event.param1, B)` from the stale
`param1 = 1` field (which `Message_ParseMessage` never sets for REV
messages) and transitions to DEFENDING. -/
theorem c1_accepting_rev_uses_stale_param1 :
    (AgentRun 1 wBase ⟨BB_EVENT_REV_RECEIVED, 0, 1, 0⟩).map
        (fun r => (r.1.agentState, r.2.1.type)) =
      some (AGENT_STATE_DEFENDING, MESSAGE_SHO) ∧
    NegotiationVerify 0 wBase.hashA = true ∧
    NegotiateCoinFlip 0 wBase.B = TAILS ∧
    NegotiateCoinFlip 1 wBase.B = HEADS := by
  decide

/-! ### Claim C2 -/

/-- Claim C2: in ACCEPTING, a REV_RECEIVED whose revealed secret fails
verification against the stored commitment transitions directly to
END_SCREEN (never ATTACKING/DEFENDING), emits no message, and draws the
distinct cheating-detected text. -/
theorem c2_verify_failure_is_fatal_no_emission
    (fuel : Nat) (w : AgentWorld) (e : BBEvent)
    (hs : w.agentState = AGENT_STATE_ACCEPTING)
    (ht : e.type = BB_EVENT_REV_RECEIVED)
    (hv : NegotiationVerify e.param0 w.hashA = false) :
    (AgentRun fuel w e).map (fun r => (r.1.agentState, r.2.1.type, r.2.2)) =
      some (AGENT_STATE_END_SCREEN, MESSAGE_NONE,
        ["ERROR: Cheating Detected"]) := by
  simp [AgentRun, hs, ht, hv, msgNone]

/-- Witness for C2 at a concrete input: commitment 5 stored, secret 0
revealed (`commit(0) = 0 ≠ 5`). -/
theorem c2_verify_failure_witness :
    (AgentRun 1 { wBase with hashA := 5 }
        ⟨BB_EVENT_REV_RECEIVED, 0, 0, 0⟩).map
        (fun r => (r.1.agentState, r.2.1.type, r.2.2)) =
      some (AGENT_STATE_END_SCREEN, MESSAGE_NONE,
        ["ERROR: Cheating Detected"]) :=
  c2_verify_failure_is_fatal_no_emission 1 { wBase with hashA := 5 }
    ⟨BB_EVENT_REV_RECEIVED, 0, 0, 0⟩ rfl rfl (by decide)

/-! ### Claim C6 -/

/-- Claim C6 (code bug): the matching checksum string for `SHO,2,9` is
`5F` (bytes `[53, 70]`).  Flipping the single bit `0x20` of the second
checksum character turns it into the byte `102` (`f`), yet
`Message_ParseMessage` still produces `SHO_RECEIVED` and `SUCCESS` — it
accepts lowercase hexadecimal, contradicting the claim (and the source's
own comment that `$SHO,2,3*5f\r\n` is an invalid message). -/
theorem c6_lowercase_checksum_bitflip_accepted :
    Message_CalculateChecksum shoPayload = 95 ∧
    hex2 95 = [53, 70] ∧
    (102 : Nat) = 70 ^^^ 32 ∧
    (Message_ParseMessage shoPayload [53, 102] evInit).1 = true ∧
    (Message_ParseMessage shoPayload [53, 102] evInit).2.type =
      BB_EVENT_SHO_RECEIVED := by
  decide

/-! ### Claim C7 -/

/-- Counterexample for C7: the payload `CHA,1,2` carries an extra field
beyond the one the CHA template declares, with its matching checksum `49`,
yet `Message_ParseMessage` accepts it as `CHA_RECEIVED(1)` instead of the
ERROR the claim requires for a wrong field count. -/
theorem c7_counterexample_extra_fields_accepted :
    Message_CalculateChecksum chaExtraPayload = 73 ∧
    hex2 73 = [52, 57] ∧
    (Message_ParseMessage chaExtraPayload [52, 57] evInit).2.type =
      BB_EVENT_CHA_RECEIVED ∧
    (Message_ParseMessage chaExtraPayload [52, 57] evInit).2.param0 = 1 := by
  decide


/-- Claim C7 as amended: `Message_ParseMessage` produces a non-ERROR event
only when the checksum string is two bytes matching the XOR checksum, the
payload's first token is a recognised tag, and the declared fields of that
tag's template all parse; extra content after the declared fields is
ignored rather than rejected (scanf prefix matching), as the
counterexample shows. -/
theorem c7_amended_parse_requires_known_tag_and_fields
    (payload cs : List Nat) (ev : BBEvent)
    (h : (Message_ParseMessage payload cs ev).2.type ≠ BB_EVENT_ERROR) :
    cs.length = 2 ∧ checksumMatches payload cs = true ∧
    recognizedTag payload = true ∧ templateFieldsParse payload = true := by
  simp only [Message_ParseMessage] at h
  repeat' (split at h)
  all_goals
    simp_all [parseErr, checksumMatches, recognizedTag, templateFieldsParse]

/-- Witness for C7's amended claim at the payload `SHO,2,9` with checksum
`5F`. -/
theorem c7_amended_witness :
    shoPayload.length.succ = 8 ∧
    ([53, 70] : List Nat).length = 2 ∧
    checksumMatches shoPayload [53, 70] = true ∧
    recognizedTag shoPayload = true ∧
    templateFieldsParse shoPayload = true :=
  ⟨rfl,
    (c7_amended_parse_requires_known_tag_and_fields shoPayload [53, 70]
      evInit (by decide)).1.symm ▸ rfl,
    (c7_amended_parse_requires_known_tag_and_fields shoPayload [53, 70]
      evInit (by decide)).2.1,
    (c7_amended_parse_requires_known_tag_and_fields shoPayload [53, 70]
      evInit (by decide)).2.2.1,
    (c7_amended_parse_requires_known_tag_and_fields shoPayload [53, 70]
      evInit (by decide)).2.2.2⟩

/-! ### Decoder invariants (shared by the framing claims)

The payload buffer content always has exactly `payloadIdx` bytes and never
grows past `MESSAGE_MAX_PAYLOAD_LEN`; the checksum buffer holds at most the
two digit bytes, while `csumIdx` additionally counts the `\r`. -/


theorem dInv_init : DInv dInit := by
  simp [DInv, dInit, MESSAGE_MAX_PAYLOAD_LEN]

theorem dInv_step (st : DecodeSt) (ev : BBEvent) (c : Nat) (h : DInv st) :
    DInv (Message_Decode st ev c).st := by
  obtain ⟨state, p, pi, cs, ci⟩ := st
  obtain ⟨h1, h2, h3, h4⟩ := h
  simp only [DInv, MESSAGE_MAX_PAYLOAD_LEN] at *
  cases state <;>
    simp only [Message_Decode] <;>
    split_ifs <;>
    simp_all [MESSAGE_MAX_PAYLOAD_LEN] <;>
    omega

/-- Every payload handed to the parser is the recorded buffer of the state
the terminating line feed arrives in. -/
theorem decode_parsed_eq (st : DecodeSt) (ev : BBEvent) (c : Nat)
    (pc : List Nat × List Nat)
    (h : (Message_Decode st ev c).parsed = some pc) :
    pc = (st.payload, st.csum) := by
  obtain ⟨state, p, pi, cs, ci⟩ := st
  cases state <;>
    simp only [Message_Decode] at h <;>
    split_ifs at h <;>
    simp_all

theorem dInv_run (st : DecodeSt) (ev : BBEvent) (bs : List Nat)
    (h : DInv st) : DInv (decodeRun st ev bs).st := by
  induction bs generalizing st ev with
  | nil => simpa [decodeRun] using h
  | cons c cs ih =>
    simpa [decodeRun] using ih _ _ (dInv_step st ev c h)

/-- Every parse invocation along a run from an invariant state receives a
payload of at most `MESSAGE_MAX_PAYLOAD_LEN` bytes. -/
theorem parses_bounded (st : DecodeSt) (ev : BBEvent) (bs : List Nat)
    (h : DInv st) (pc : List Nat × List Nat)
    (hm : pc ∈ (decodeRun st ev bs).parses) :
    pc.1.length ≤ MESSAGE_MAX_PAYLOAD_LEN := by
  induction bs generalizing st ev with
  | nil => simp [decodeRun] at hm
  | cons c cs ih =>
    simp only [decodeRun] at hm
    cases hp : (Message_Decode st ev c).parsed with
    | none =>
      simp only [hp] at hm
      exact ih _ _ (dInv_step st ev c h) hm
    | some p =>
      simp only [hp] at hm
      rcases List.mem_cons.mp hm with hh | hh
      · have hpe := decode_parsed_eq st ev c p hp
        obtain ⟨h1, h2, _, _⟩ := h
        rw [hh, hpe]
        simpa [h1] using h2
      · exact ih _ _ (dInv_step st ev c h) hh

/-! ### Claim C4 -/

/-- Claim C4: whenever `Message_Decode` reports an ERROR event, its state
returns to `WAIT_FOR_START_DELIMITER`; and `Message_ParseMessage` is
invoked exactly when the byte is the line feed arriving after the complete
`$…*CC\r` prefix of a frame, on the fully recorded payload and checksum
buffers — never on a partial frame. -/
theorem c4_error_resync_and_full_frame_parse
    (st : DecodeSt) (ev : BBEvent) (c : Nat) :
    ((Message_Decode st ev c).ev.type = BB_EVENT_ERROR →
      (Message_Decode st ev c).st.state = WAIT_FOR_START_DELIMITER) ∧
    (∀ pc, (Message_Decode st ev c).parsed = some pc →
      st.state = RECORDING_CHECKSUM ∧ st.csumIdx = 3 ∧ c = 10 ∧
      pc = (st.payload, st.csum)) := by
  obtain ⟨state, p, pi, cs, ci⟩ := st
  constructor
  · intro he
    cases state <;>
      simp only [Message_Decode] at he ⊢ <;>
      split_ifs at he ⊢ <;>
      simp_all
  · intro pc hp
    cases state <;>
      simp only [Message_Decode] at hp ⊢ <;>
      split_ifs at hp <;>
      simp_all

/-- Witness for C4 at a concrete input: a bare carriage return while
recording a payload is an ERROR and resynchronises. -/
theorem c4_error_resync_witness :
    (Message_Decode ⟨RECORDING_PAYLOAD, [65], 1, [], 0⟩ evInit 13).ev.type =
        BB_EVENT_ERROR →
      (Message_Decode ⟨RECORDING_PAYLOAD, [65], 1, [], 0⟩ evInit 13).st.state =
        WAIT_FOR_START_DELIMITER :=
  (c4_error_resync_and_full_frame_parse
    ⟨RECORDING_PAYLOAD, [65], 1, [], 0⟩ evInit 13).1

/-! ### Claim C5 -/

set_option maxRecDepth 8000 in
set_option maxHeartbeats 4000000 in
/-- Counterexample for C5: the claim says a byte that would make the
payload exceed 75 bytes is rejected with ERROR.  Feeding `$` and then 76
payload bytes, the 76th payload byte — which makes the recorded payload 76
bytes long — is accepted with NO_EVENT: the code's cap is
`MESSAGE_MAX_PAYLOAD_LEN = 82 − 6 = 76`, not 75. -/
theorem c5_counterexample_76_byte_payload_accepted :
    ((decodeRun dInit evInit (36 :: List.replicate 76 65)).events.getLast?).map
        (fun e => e.type) = some BB_EVENT_NO_EVENT ∧
    (decodeRun dInit evInit (36 :: List.replicate 76 65)).st.payloadIdx = 76 ∧
    (decodeRun dInit evInit (36 :: List.replicate 76 65)).st.state =
      RECORDING_PAYLOAD := by
  decide

/-- Claim C5 as amended: the decoder accepts at most 76 payload bytes per
frame; while recording the payload, a byte that would make the payload
exceed 76 bytes (and is not `*`, `\r` or `$`) is rejected with ERROR and a
reset to `WAIT_FOR_START_DELIMITER`, and no payload longer than 76 bytes is
ever handed to the parser. -/
theorem c5_amended_payload_cap_is_76 :
    (∀ (st : DecodeSt) (ev : BBEvent) (c : Nat),
      st.state = RECORDING_PAYLOAD → st.payloadIdx ≥ 76 →
      c ≠ 42 → c ≠ 13 → c ≠ 36 →
      (Message_Decode st ev c).ev.type = BB_EVENT_ERROR ∧
      (Message_Decode st ev c).st.state = WAIT_FOR_START_DELIMITER) ∧
    (∀ (bs : List Nat) (ev0 : BBEvent) (pc : List Nat × List Nat),
      pc ∈ (decodeRun dInit ev0 bs).parses → pc.1.length ≤ 76) := by
  constructor
  · intro st ev c hs hi h42 h13 h36
    obtain ⟨state, p, pi, cs, ci⟩ := st
    simp only at hs hi
    subst hs
    simp [Message_Decode, h42, h13, h36, MESSAGE_MAX_PAYLOAD_LEN, hi]
  · intro bs ev0 pc hm
    exact parses_bounded dInit ev0 bs dInv_init pc hm

/-- Witness for C5's amended bound: with 76 bytes already recorded, one
more payload byte is an ERROR with reset. -/
theorem c5_amended_witness :
    (Message_Decode ⟨RECORDING_PAYLOAD, List.replicate 76 65, 76, [], 0⟩
        evInit 65).ev.type = BB_EVENT_ERROR ∧
    (Message_Decode ⟨RECORDING_PAYLOAD, List.replicate 76 65, 76, [], 0⟩
        evInit 65).st.state = WAIT_FOR_START_DELIMITER :=
  c5_amended_payload_cap_is_76.1
    ⟨RECORDING_PAYLOAD, List.replicate 76 65, 76, [], 0⟩ evInit 65
    rfl (by decide) (by decide) (by decide) (by decide)

/-! ### Claim C10 -/

/-- Claim C10: for every byte sequence fed from the idle state, the payload
index never exceeds `MESSAGE_MAX_PAYLOAD_LEN` (76) and the checksum index
never exceeds 3, the payload buffer holds exactly `payloadIdx` bytes and
the checksum buffer at most its two digit bytes — so every buffer write of
the C code stays inside the static arrays (of sizes 77 and 3), and each
call handles its single byte with no iteration at all. -/
theorem c10_decoder_buffer_indices_bounded (bs : List Nat) (ev0 : BBEvent) :
    (decodeRun dInit ev0 bs).st.payloadIdx ≤ MESSAGE_MAX_PAYLOAD_LEN ∧
    (decodeRun dInit ev0 bs).st.csumIdx ≤ 3 ∧
    (decodeRun dInit ev0 bs).st.payload.length =
      (decodeRun dInit ev0 bs).st.payloadIdx ∧
    (decodeRun dInit ev0 bs).st.csum.length ≤ 2 := by
  have h := dInv_run dInit ev0 bs dInv_init
  obtain ⟨h1, h2, h3, h4⟩ := h
  exact ⟨h2, h4, h1, by omega⟩

/-! ### Round-trip support: decimal rendering reads back -/

theorem natToDecAux_acc (fuel : Nat) : ∀ (n : Nat) (acc : List Nat),
    natToDecAux fuel n acc = natToDecAux fuel n [] ++ acc := by
  induction fuel with
  | zero => intro n acc; simp [natToDecAux]
  | succ fuel ih =>
    intro n acc
    by_cases h : n < 10
    · simp [natToDecAux, h]
    · simp only [natToDecAux, h, if_false]
      rw [ih (n / 10) ((48 + n % 10) :: acc), ih (n / 10) [48 + n % 10]]
      simp

theorem natToDecAux_extra : ∀ (n f1 f2 : Nat), n < f1 → n < f2 →
    natToDecAux f1 n [] = natToDecAux f2 n [] := by
  intro n
  induction n using Nat.strong_induction_on with
  | _ n ih =>
    intro f1 f2 h1 h2
    match f1, f2 with
    | g1 + 1, g2 + 1 =>
      by_cases h : n < 10
      · simp [natToDecAux, h]
      · simp only [natToDecAux, h, if_false]
        rw [natToDecAux_acc g1, natToDecAux_acc g2]
        rw [ih (n / 10) (Nat.div_lt_self (by omega) (by omega)) g1 g2
          (by omega) (by omega)]

theorem natToDec_base (n : Nat) (h : n < 10) : natToDec n = [48 + n] := by
  simp [natToDec, natToDecAux, h]

theorem natToDec_step (n : Nat) (h : 10 ≤ n) :
    natToDec n = natToDec (n / 10) ++ [48 + n % 10] := by
  have h10 : ¬ n < 10 := by omega
  have e1 : natToDec n = natToDecAux n (n / 10) [48 + n % 10] := by
    conv_lhs => rw [natToDec, natToDecAux]
    simp [h10]
  rw [e1, natToDecAux_acc n]
  rw [natToDecAux_extra (n / 10) n (n / 10 + 1)
    (Nat.div_lt_self (by omega) (by omega)) (by omega)]
  rfl

theorem natToDec_digits (n : Nat) : ∀ c ∈ natToDec n, 48 ≤ c ∧ c ≤ 57 := by
  induction n using Nat.strong_induction_on with
  | _ n ih =>
    by_cases h : n < 10
    · rw [natToDec_base n h]
      intro c hc
      simp at hc
      omega
    · rw [natToDec_step n (by omega)]
      intro c hc
      rcases List.mem_append.mp hc with hc | hc
      · exact ih (n / 10) (Nat.div_lt_self (by omega) (by omega)) c hc
      · simp at hc
        have := Nat.mod_lt n (y := 10) (by omega)
        omega

theorem natToDec_ne_nil (n : Nat) : natToDec n ≠ [] := by
  by_cases h : n < 10
  · rw [natToDec_base n h]; simp
  · rw [natToDec_step n (by omega)]; simp

theorem decVal_append (ds : List Nat) (d : Nat) :
    decVal (ds ++ [d]) = decVal ds * 10 + (d - 48) := by
  simp [decVal, List.foldl_append]

theorem decVal_natToDec (n : Nat) : decVal (natToDec n) = n := by
  induction n using Nat.strong_induction_on with
  | _ n ih =>
    by_cases h : n < 10
    · rw [natToDec_base n h]
      simp [decVal]
    · rw [natToDec_step n (by omega), decVal_append]
      rw [ih (n / 10) (Nat.div_lt_self (by omega) (by omega))]
      omega

theorem natToDec_len (k : Nat) : ∀ n, n < 10 ^ k → 1 ≤ k →
    (natToDec n).length ≤ k := by
  induction k with
  | zero => omega
  | succ k ih =>
    intro n hn _
    by_cases h : n < 10
    · rw [natToDec_base n h]; simp
    · rw [natToDec_step n (by omega)]
      have hk : 1 ≤ k := by
        by_contra hk
        have : k = 0 := by omega
        subst this
        simp at hn
        omega
      have : n / 10 < 10 ^ k := by
        have := Nat.div_lt_iff_lt_mul (x := n) (k := 10) (y := 10 ^ k) (by omega)
        rw [this]
        calc n < 10 ^ (k + 1) := hn
        _ = 10 ^ k * 10 := by ring
      have := ih (n / 10) this hk
      simp [List.length_append]
      omega

/-! ### Round-trip support: takeWhile and dropWhile across appends -/

theorem takeWhile_append_all {p : Nat → Bool} :
    ∀ {xs ys : List Nat}, (∀ x ∈ xs, p x = true) →
    (xs ++ ys).takeWhile p = xs ++ ys.takeWhile p := by
  intro xs
  induction xs with
  | nil => simp
  | cons a l ih =>
    intro ys h
    have ha : p a = true := h a (by simp)
    simp only [List.cons_append, List.takeWhile_cons, ha, if_true]
    rw [ih fun x hx => h x (by simp [hx])]

theorem dropWhile_append_all {p : Nat → Bool} :
    ∀ {xs ys : List Nat}, (∀ x ∈ xs, p x = true) →
    (xs ++ ys).dropWhile p = ys.dropWhile p := by
  intro xs
  induction xs with
  | nil => simp
  | cons a l ih =>
    intro ys h
    have ha : p a = true := h a (by simp)
    simp only [List.cons_append, List.dropWhile_cons, ha, if_true]
    rw [ih fun x hx => h x (by simp [hx])]

/-! ### Round-trip support: checksum bound and hex read-back -/

theorem checksum_lt_256 (p : List Nat) : Message_CalculateChecksum p < 256 := by
  suffices h : ∀ (l : List Nat) (a : Nat), a < 256 →
      l.foldl (fun a c => a ^^^ (c % 256)) a < 256 by
    exact h p 0 (by omega)
  intro l
  induction l with
  | nil => intro a ha; simpa using ha
  | cons c cs ih =>
    intro a ha
    refine ih _ ?_
    have h1 : a < 2 ^ 8 := ha
    have h2 : c % 256 < 2 ^ 8 := by
      have := Nat.mod_lt c (y := 256) (by omega)
      simpa using this
    simpa using Nat.xor_lt_two_pow h1 h2

set_option maxRecDepth 4000 in
theorem scanfX2_hex2 : ∀ n, n < 256 → scanfX2 (hex2 n) = some (n, []) := by
  decide

set_option maxRecDepth 4000 in
theorem hex2_digits : ∀ n, n < 256 → ∀ c ∈ hex2 n, isXDigitB c = true := by
  decide

/-! ### Round-trip support: the scanf conversions read rendered values
back -/

theorem natToDec_all_digit (v : Nat) : ∀ c ∈ natToDec v, isDigitB c = true := by
  intro c hc
  have := natToDec_digits v c hc
  simp only [isDigitB, decide_eq_true_eq]
  omega

theorem scanfU_dec (v : Nat) (rest : List Nat) (hv : v < 4294967296)
    (hrest : ∀ b, rest.head? = some b → isDigitB b = false) :
    scanfU (natToDec v ++ rest) = some (v, rest) := by
  obtain ⟨d, ds, hds⟩ : ∃ d ds, natToDec v = d :: ds := by
    cases hnd : natToDec v with
    | nil => exact absurd hnd (natToDec_ne_nil v)
    | cons a l => exact ⟨a, l, rfl⟩
  have hd := natToDec_digits v d (by rw [hds]; simp)
  have hsp : isSpaceB d = false := by
    simp only [isSpaceB, decide_eq_false_iff_not]
    omega
  have hdrop : (natToDec v ++ rest).dropWhile isSpaceB =
      d :: (ds ++ rest) := by
    rw [hds]
    simp [List.dropWhile_cons, hsp]
  have hback : d :: (ds ++ rest) = natToDec v ++ rest := by
    rw [hds]; simp
  have htake : (natToDec v ++ rest).takeWhile isDigitB = natToDec v := by
    rw [takeWhile_append_all (natToDec_all_digit v)]
    cases rest with
    | nil => simp
    | cons b bs =>
      have hb := hrest b rfl
      simp [List.takeWhile_cons, hb]
  have hdropD : (natToDec v ++ rest).dropWhile isDigitB = rest := by
    rw [dropWhile_append_all (natToDec_all_digit v)]
    cases rest with
    | nil => simp
    | cons b bs =>
      have hb := hrest b rfl
      simp [List.dropWhile_cons, hb]
  have hdigits : scanfUDigits (natToDec v ++ rest) = some (v, rest) := by
    unfold scanfUDigits
    rw [htake, hdropD]
    have hne := natToDec_ne_nil v
    simp only [List.isEmpty_iff, hne, if_false]
    rw [decVal_natToDec]
    rw [Nat.mod_eq_of_lt hv]
  have h43 : ¬ d = 43 := by omega
  have h45 : ¬ d = 45 := by omega
  unfold scanfU
  rw [hdrop]
  dsimp only
  rw [if_neg h43, if_neg h45, hback]
  exact hdigits

theorem scanfD_dec (v : Nat) (rest : List Nat)
    (hrest : ∀ b, rest.head? = some b → isDigitB b = false) :
    scanfD (natToDec v ++ rest) = some ((v : Int), rest) := by
  obtain ⟨d, ds, hds⟩ : ∃ d ds, natToDec v = d :: ds := by
    cases hnd : natToDec v with
    | nil => exact absurd hnd (natToDec_ne_nil v)
    | cons a l => exact ⟨a, l, rfl⟩
  have hd := natToDec_digits v d (by rw [hds]; simp)
  have hsp : isSpaceB d = false := by
    simp only [isSpaceB, decide_eq_false_iff_not]
    omega
  have hdrop : (natToDec v ++ rest).dropWhile isSpaceB =
      d :: (ds ++ rest) := by
    rw [hds]
    simp [List.dropWhile_cons, hsp]
  have hback : d :: (ds ++ rest) = natToDec v ++ rest := by
    rw [hds]; simp
  have htake : (natToDec v ++ rest).takeWhile isDigitB = natToDec v := by
    rw [takeWhile_append_all (natToDec_all_digit v)]
    cases rest with
    | nil => simp
    | cons b bs =>
      have hb := hrest b rfl
      simp [List.takeWhile_cons, hb]
  have hdropD : (natToDec v ++ rest).dropWhile isDigitB = rest := by
    rw [dropWhile_append_all (natToDec_all_digit v)]
    cases rest with
    | nil => simp
    | cons b bs =>
      have hb := hrest b rfl
      simp [List.dropWhile_cons, hb]
  have hdigits : scanfDDigits (natToDec v ++ rest) = some ((v : Int), rest) := by
    unfold scanfDDigits
    rw [htake, hdropD]
    have hne := natToDec_ne_nil v
    simp only [List.isEmpty_iff, hne, if_false]
    rw [decVal_natToDec]
  have h43 : ¬ d = 43 := by omega
  have h45 : ¬ d = 45 := by omega
  unfold scanfD
  rw [hdrop]
  dsimp only
  rw [if_neg h43, if_neg h45, hback]
  exact hdigits

theorem scanf3s_tag (t1 t2 t3 : Nat) (rest : List Nat)
    (h1 : isSpaceB t1 = false) (h2 : isSpaceB t2 = false)
    (h3 : isSpaceB t3 = false) :
    scanf3s (t1 :: t2 :: t3 :: rest) = some [t1, t2, t3] := by
  unfold scanf3s
  simp [List.dropWhile_cons, h1, List.takeWhile_cons, h2, h3]

theorem stripLitB_append (lit rest : List Nat) :
    stripLitB lit (lit ++ rest) = some rest := by
  induction lit with
  | nil => simp [stripLitB]
  | cons a l ih => simp [stripLitB, ih]

theorem u32ofInt_ofNat (v : Nat) (hv : v < 4294967296) :
    u32ofInt (v : Int) = v := by
  unfold u32ofInt
  omega


theorem no_digit_head_nil : ∀ b : Nat, ([] : List Nat).head? = some b →
    isDigitB b = false := by
  intro b hb
  simp at hb

theorem no_digit_head_comma (l : List Nat) :
    ∀ b : Nat, (44 :: l).head? = some b → isDigitB b = false := by
  intro b hb
  simp at hb
  subst hb
  decide

/-- Parsing the rendered payload of a non-`NONE` message against its own
checksum reconstructs the message's event. -/
theorem parse_payloadOf (m : Message) (hne : m.type ≠ MESSAGE_NONE)
    (h0 : m.param0 < 65536) (h1 : m.param1 < 65536) (h2 : m.param2 < 65536)
    (ev : BBEvent) :
    Message_ParseMessage (payloadOf m)
        (hex2 (Message_CalculateChecksum (payloadOf m))) ev =
      (true, expectedEvent m ev) := by
  obtain ⟨ty, p0, p1, p2⟩ := m
  simp only at h0 h1 h2
  have hp0 : p0 % 65536 = p0 := Nat.mod_eq_of_lt h0
  have hp1 : p1 % 65536 = p1 := Nat.mod_eq_of_lt h1
  have hp2 : p2 % 65536 = p2 := Nat.mod_eq_of_lt h2
  cases ty
  case MESSAGE_NONE => exact absurd rfl hne
  case MESSAGE_CHA =>
    simp only [payloadOf, hp0, expectedEvent]
    set pay := tagCHA ++ 44 :: natToDec p0 with hpayDef
    have hck := checksum_lt_256 pay
    have hx2 := scanfX2_hex2 _ hck
    have hmod : Message_CalculateChecksum pay % 256 =
        Message_CalculateChecksum pay := Nat.mod_eq_of_lt hck
    have h3s : scanf3s pay = some tagCHA := by
      rw [show pay = 67 :: 72 :: 65 :: (44 :: natToDec p0) from by
        simp [hpayDef, tagCHA]]
      exact scanf3s_tag 67 72 65 _ (by decide) (by decide) (by decide)
    have hstrip : stripLitB (tagCHA ++ [44]) pay = some (natToDec p0) := by
      rw [show pay = (tagCHA ++ [44]) ++ natToDec p0 from by simp [hpayDef]]
      exact stripLitB_append _ _
    have hu : scanfU (natToDec p0) = some (p0, []) := by
      simpa using scanfU_dec p0 [] (by omega) no_digit_head_nil
    have hlen : (hex2 (Message_CalculateChecksum pay)).length = 2 := by
      simp [hex2]
    simp [Message_ParseMessage, hlen, hx2, h3s, hstrip, hu, hmod, hp0]
  case MESSAGE_ACC =>
    simp only [payloadOf, hp0, expectedEvent]
    set pay := tagACC ++ 44 :: natToDec p0 with hpayDef
    have hck := checksum_lt_256 pay
    have hx2 := scanfX2_hex2 _ hck
    have hmod : Message_CalculateChecksum pay % 256 =
        Message_CalculateChecksum pay := Nat.mod_eq_of_lt hck
    have h3s : scanf3s pay = some tagACC := by
      rw [show pay = 65 :: 67 :: 67 :: (44 :: natToDec p0) from by
        simp [hpayDef, tagACC]]
      exact scanf3s_tag 65 67 67 _ (by decide) (by decide) (by decide)
    have hstrip : stripLitB (tagACC ++ [44]) pay = some (natToDec p0) := by
      rw [show pay = (tagACC ++ [44]) ++ natToDec p0 from by simp [hpayDef]]
      exact stripLitB_append _ _
    have hu : scanfU (natToDec p0) = some (p0, []) := by
      simpa using scanfU_dec p0 [] (by omega) no_digit_head_nil
    have hlen : (hex2 (Message_CalculateChecksum pay)).length = 2 := by
      simp [hex2]
    have ht1 : ¬ (tagACC = tagCHA) := by decide
    simp [Message_ParseMessage, hlen, hx2, h3s, hstrip, hu, hmod, hp0, ht1]
  case MESSAGE_REV =>
    simp only [payloadOf, hp0, expectedEvent]
    set pay := tagREV ++ 44 :: natToDec p0 with hpayDef
    have hck := checksum_lt_256 pay
    have hx2 := scanfX2_hex2 _ hck
    have hmod : Message_CalculateChecksum pay % 256 =
        Message_CalculateChecksum pay := Nat.mod_eq_of_lt hck
    have h3s : scanf3s pay = some tagREV := by
      rw [show pay = 82 :: 69 :: 86 :: (44 :: natToDec p0) from by
        simp [hpayDef, tagREV]]
      exact scanf3s_tag 82 69 86 _ (by decide) (by decide) (by decide)
    have hstrip : stripLitB (tagREV ++ [44]) pay = some (natToDec p0) := by
      rw [show pay = (tagREV ++ [44]) ++ natToDec p0 from by simp [hpayDef]]
      exact stripLitB_append _ _
    have hu : scanfU (natToDec p0) = some (p0, []) := by
      simpa using scanfU_dec p0 [] (by omega) no_digit_head_nil
    have hlen : (hex2 (Message_CalculateChecksum pay)).length = 2 := by
      simp [hex2]
    have ht1 : ¬ (tagREV = tagCHA) := by decide
    have ht2 : ¬ (tagREV = tagACC) := by decide
    simp [Message_ParseMessage, hlen, hx2, h3s, hstrip, hu, hmod, hp0,
      ht1, ht2]
  case MESSAGE_SHO =>
    simp only [payloadOf, hp0, hp1, expectedEvent]
    set pay := tagSHO ++ 44 :: (natToDec p0 ++ 44 :: natToDec p1) with hpayDef
    have hck := checksum_lt_256 pay
    have hx2 := scanfX2_hex2 _ hck
    have hmod : Message_CalculateChecksum pay % 256 =
        Message_CalculateChecksum pay := Nat.mod_eq_of_lt hck
    have h3s : scanf3s pay = some tagSHO := by
      rw [show pay = 83 :: 72 :: 79 ::
          (44 :: (natToDec p0 ++ 44 :: natToDec p1)) from by
        simp [hpayDef, tagSHO]]
      exact scanf3s_tag 83 72 79 _ (by decide) (by decide) (by decide)
    have hstrip : stripLitB (tagSHO ++ [44]) pay =
        some (natToDec p0 ++ 44 :: natToDec p1) := by
      rw [show pay = (tagSHO ++ [44]) ++ (natToDec p0 ++ 44 :: natToDec p1)
        from by simp [hpayDef]]
      exact stripLitB_append _ _
    have hd0 : scanfD (natToDec p0 ++ 44 :: natToDec p1) =
        some ((p0 : Int), 44 :: natToDec p1) :=
      scanfD_dec p0 (44 :: natToDec p1) (no_digit_head_comma _)
    have hstrip2 : stripLitB [44] (44 :: natToDec p1) =
        some (natToDec p1) := by
      simpa using stripLitB_append [44] (natToDec p1)
    have hd1 : scanfD (natToDec p1) = some ((p1 : Int), []) := by
      simpa using scanfD_dec p1 [] no_digit_head_nil
    have hu0 : u32ofInt (p0 : Int) = p0 := u32ofInt_ofNat p0 (by omega)
    have hu1 : u32ofInt (p1 : Int) = p1 := u32ofInt_ofNat p1 (by omega)
    have hlen : (hex2 (Message_CalculateChecksum pay)).length = 2 := by
      simp [hex2]
    have ht1 : ¬ (tagSHO = tagCHA) := by decide
    have ht2 : ¬ (tagSHO = tagACC) := by decide
    have ht3 : ¬ (tagSHO = tagREV) := by decide
    simp [Message_ParseMessage, hlen, hx2, h3s, hstrip, hd0, hstrip2, hd1,
      hu0, hu1, hmod, hp0, hp1, ht1, ht2, ht3]
  case MESSAGE_RES =>
    simp only [payloadOf, hp0, hp1, hp2, expectedEvent]
    set pay := tagRES ++ 44 :: (natToDec p0 ++ 44 ::
      (natToDec p1 ++ 44 :: natToDec p2)) with hpayDef
    have hck := checksum_lt_256 pay
    have hx2 := scanfX2_hex2 _ hck
    have hmod : Message_CalculateChecksum pay % 256 =
        Message_CalculateChecksum pay := Nat.mod_eq_of_lt hck
    have h3s : scanf3s pay = some tagRES := by
      rw [show pay = 82 :: 69 :: 83 :: (44 :: (natToDec p0 ++ 44 ::
          (natToDec p1 ++ 44 :: natToDec p2))) from by
        simp [hpayDef, tagRES]]
      exact scanf3s_tag 82 69 83 _ (by decide) (by decide) (by decide)
    have hstrip : stripLitB (tagRES ++ [44]) pay =
        some (natToDec p0 ++ 44 :: (natToDec p1 ++ 44 :: natToDec p2)) := by
      rw [show pay = (tagRES ++ [44]) ++ (natToDec p0 ++ 44 ::
          (natToDec p1 ++ 44 :: natToDec p2)) from by simp [hpayDef]]
      exact stripLitB_append _ _
    have hu0 : scanfU (natToDec p0 ++ 44 :: (natToDec p1 ++ 44 ::
        natToDec p2)) = some (p0, 44 :: (natToDec p1 ++ 44 :: natToDec p2)) :=
      scanfU_dec p0 _ (by omega) (no_digit_head_comma _)
    have hstrip2 : stripLitB [44] (44 :: (natToDec p1 ++ 44 :: natToDec p2)) =
        some (natToDec p1 ++ 44 :: natToDec p2) := by
      simpa using stripLitB_append [44] (natToDec p1 ++ 44 :: natToDec p2)
    have hu1 : scanfU (natToDec p1 ++ 44 :: natToDec p2) =
        some (p1, 44 :: natToDec p2) :=
      scanfU_dec p1 _ (by omega) (no_digit_head_comma _)
    have hstrip3 : stripLitB [44] (44 :: natToDec p2) =
        some (natToDec p2) := by
      simpa using stripLitB_append [44] (natToDec p2)
    have hu2 : scanfU (natToDec p2) = some (p2, []) := by
      simpa using scanfU_dec p2 [] (by omega) no_digit_head_nil
    have hlen : (hex2 (Message_CalculateChecksum pay)).length = 2 := by
      simp [hex2]
    have ht1 : ¬ (tagRES = tagCHA) := by decide
    have ht2 : ¬ (tagRES = tagACC) := by decide
    have ht3 : ¬ (tagRES = tagREV) := by decide
    have ht4 : ¬ (tagRES = tagSHO) := by decide
    simp [Message_ParseMessage, hlen, hx2, h3s, hstrip, hu0, hstrip2, hu1,
      hstrip3, hu2, hmod, hp0, hp1, hp2, ht1, ht2, ht3, ht4]

/-! ### Round-trip support: walking the decoder over a frame -/

theorem bbevent_eta (ev : BBEvent) (h : ev.type = BB_EVENT_NO_EVENT) :
    { ev with type := BB_EVENT_NO_EVENT } = ev := by
  cases ev
  simp_all

theorem decodeRun_append (st : DecodeSt) (ev : BBEvent) (xs ys : List Nat) :
    decodeRun st ev (xs ++ ys) =
      ⟨(decodeRun (decodeRun st ev xs).st (decodeRun st ev xs).ev ys).st,
       (decodeRun (decodeRun st ev xs).st (decodeRun st ev xs).ev ys).ev,
       (decodeRun st ev xs).events ++
         (decodeRun (decodeRun st ev xs).st (decodeRun st ev xs).ev ys).events,
       (decodeRun st ev xs).parses ++
         (decodeRun (decodeRun st ev xs).st (decodeRun st ev xs).ev ys).parses⟩ := by
  induction xs generalizing st ev with
  | nil => simp [decodeRun]
  | cons c cs ih =>
    cases hp : (Message_Decode st ev c).parsed <;>
      simp [decodeRun, hp, ih]

/-- Feeding safe payload bytes (no `*`, `\r`, `$`) while recording the
payload appends them to the buffer, emitting NO_EVENT each time. -/
theorem feed_payload (cs : List Nat) : ∀ (buf csb : List Nat) (ci : Nat)
    (ev : BBEvent), ev.type = BB_EVENT_NO_EVENT →
    (∀ c ∈ cs, c ≠ 42 ∧ c ≠ 13 ∧ c ≠ 36) →
    buf.length + cs.length ≤ 76 →
    decodeRun ⟨RECORDING_PAYLOAD, buf, buf.length, csb, ci⟩ ev cs =
      ⟨⟨RECORDING_PAYLOAD, buf ++ cs, (buf ++ cs).length, csb, ci⟩, ev,
        List.replicate cs.length ev, []⟩ := by
  induction cs with
  | nil =>
    intro buf csb ci ev hev hsafe hlen
    simp [decodeRun]
  | cons c cs ih =>
    intro buf csb ci ev hev hsafe hlen
    have hc := hsafe c (by simp)
    have hidx : ¬ buf.length ≥ MESSAGE_MAX_PAYLOAD_LEN := by
      simp only [MESSAGE_MAX_PAYLOAD_LEN]
      simp at hlen
      omega
    have hstep : Message_Decode ⟨RECORDING_PAYLOAD, buf, buf.length, csb, ci⟩
        ev c =
        ⟨⟨RECORDING_PAYLOAD, buf ++ [c], (buf ++ [c]).length, csb, ci⟩, ev,
          true, none⟩ := by
      simp only [Message_Decode]
      rw [if_neg hc.1, if_neg (by push_neg; exact ⟨hc.2.1, hc.2.2⟩),
        if_neg hidx]
      rw [bbevent_eta ev hev]
      simp
    simp only [decodeRun, hstep]
    rw [ih (buf ++ [c]) csb ci ev hev
      (fun x hx => hsafe x (by simp [hx]))
      (by simp only [List.length_append, List.length_cons,
            List.length_nil] at hlen ⊢
          omega)]
    simp [List.replicate_succ]

/-- Decoding one full frame built by `wrapFrame`: all bytes but the last
yield NO_EVENT, the final line feed yields the parse's event, and the
parser is invoked exactly once, on the frame's payload and checksum. -/
theorem decode_wrapFrame (p : List Nat) (ev0 : BBEvent)
    (hsafe : ∀ c ∈ p, c ≠ 42 ∧ c ≠ 13 ∧ c ≠ 36)
    (hlen : p.length ≤ 76) :
    decodeRun dInit ev0 (wrapFrame p) =
      ⟨⟨WAIT_FOR_START_DELIMITER, p, p.length,
          hex2 (Message_CalculateChecksum p), 3⟩,
        (if (Message_ParseMessage p (hex2 (Message_CalculateChecksum p))
              { ev0 with type := BB_EVENT_NO_EVENT }).1 then
            (Message_ParseMessage p (hex2 (Message_CalculateChecksum p))
              { ev0 with type := BB_EVENT_NO_EVENT }).2
          else
            { (Message_ParseMessage p (hex2 (Message_CalculateChecksum p))
                { ev0 with type := BB_EVENT_NO_EVENT }).2 with
                type := BB_EVENT_ERROR }),
        List.replicate (p.length + 5) { ev0 with type := BB_EVENT_NO_EVENT } ++
          [(if (Message_ParseMessage p (hex2 (Message_CalculateChecksum p))
                { ev0 with type := BB_EVENT_NO_EVENT }).1 then
              (Message_ParseMessage p (hex2 (Message_CalculateChecksum p))
                { ev0 with type := BB_EVENT_NO_EVENT }).2
            else
              { (Message_ParseMessage p (hex2 (Message_CalculateChecksum p))
                  { ev0 with type := BB_EVENT_NO_EVENT }).2 with
                  type := BB_EVENT_ERROR })],
        [(p, hex2 (Message_CalculateChecksum p))]⟩ := by
  obtain ⟨d1, d2, hh⟩ : ∃ a b,
      hex2 (Message_CalculateChecksum p) = [a, b] := ⟨_, _, rfl⟩
  have hck := checksum_lt_256 p
  have hx1 : isXDigitB d1 = true :=
    hex2_digits _ hck d1 (by rw [hh]; simp)
  have hx2d : isXDigitB d2 = true :=
    hex2_digits _ hck d2 (by rw [hh]; simp)
  set evN : BBEvent := { ev0 with type := BB_EVENT_NO_EVENT } with hevN
  have hevNt : evN.type = BB_EVENT_NO_EVENT := by rw [hevN]
  have hstart : decodeRun dInit ev0 (wrapFrame p) =
      ⟨(decodeRun ⟨RECORDING_PAYLOAD, [], 0, [], 0⟩ evN
          (p ++ 42 :: (hex2 (Message_CalculateChecksum p) ++ [13, 10]))).st,
       (decodeRun ⟨RECORDING_PAYLOAD, [], 0, [], 0⟩ evN
          (p ++ 42 :: (hex2 (Message_CalculateChecksum p) ++ [13, 10]))).ev,
       evN :: (decodeRun ⟨RECORDING_PAYLOAD, [], 0, [], 0⟩ evN
          (p ++ 42 :: (hex2 (Message_CalculateChecksum p) ++ [13, 10]))).events,
       (decodeRun ⟨RECORDING_PAYLOAD, [], 0, [], 0⟩ evN
          (p ++ 42 :: (hex2 (Message_CalculateChecksum p) ++ [13, 10]))).parses⟩ := by
    simp [wrapFrame, decodeRun, Message_Decode, dInit, hevN]
  rw [hstart]
  rw [decodeRun_append]
  have hfeed := feed_payload p [] [] 0 evN hevNt hsafe (by simpa using hlen)
  simp only [List.length_nil, List.nil_append] at hfeed
  rw [hfeed]
  have htail : decodeRun ⟨RECORDING_PAYLOAD, p, p.length, [], 0⟩ evN
      (42 :: (hex2 (Message_CalculateChecksum p) ++ [13, 10])) =
      ⟨⟨WAIT_FOR_START_DELIMITER, p, p.length,
          hex2 (Message_CalculateChecksum p), 3⟩,
        (if (Message_ParseMessage p (hex2 (Message_CalculateChecksum p))
              evN).1 then
            (Message_ParseMessage p (hex2 (Message_CalculateChecksum p))
              evN).2
          else
            { (Message_ParseMessage p (hex2 (Message_CalculateChecksum p))
                evN).2 with type := BB_EVENT_ERROR }),
        [evN, evN, evN, evN,
          (if (Message_ParseMessage p (hex2 (Message_CalculateChecksum p))
                evN).1 then
              (Message_ParseMessage p (hex2 (Message_CalculateChecksum p))
                evN).2
            else
              { (Message_ParseMessage p (hex2 (Message_CalculateChecksum p))
                  evN).2 with type := BB_EVENT_ERROR })],
        [(p, hex2 (Message_CalculateChecksum p))]⟩ := by
    rw [hh]
    simp [decodeRun, Message_Decode, hx1, hx2d, bbevent_eta evN hevNt, hh]
  rw [htail]
  have hev5 : ∀ (x f : BBEvent) (n : Nat),
      x :: (List.replicate n x ++ [x, x, x, x, f]) =
        List.replicate (n + 5) x ++ [f] := by
    intro x f n
    calc x :: (List.replicate n x ++ [x, x, x, x, f])
        = (x :: List.replicate n x) ++ [x, x, x, x, f] := by simp
      _ = List.replicate (n + 1) x ++ (List.replicate 4 x ++ [f]) := by
          rw [← List.replicate_succ]
          rfl
      _ = (List.replicate (n + 1) x ++ List.replicate 4 x) ++ [f] := by
          rw [List.append_assoc]
      _ = List.replicate (n + 5) x ++ [f] := by
          rw [← List.replicate_add]
  congr 1
  exact hev5 _ _ _


theorem bounds_append {l1 l2 : List Nat}
    (h1 : ∀ c ∈ l1, 44 ≤ c ∧ c ≤ 90) (h2 : ∀ c ∈ l2, 44 ≤ c ∧ c ≤ 90) :
    ∀ c ∈ l1 ++ l2, 44 ≤ c ∧ c ≤ 90 := by
  intro c hc
  rcases List.mem_append.mp hc with h | h
  · exact h1 c h
  · exact h2 c h

theorem bounds_cons {a : Nat} {l : List Nat} (ha : 44 ≤ a ∧ a ≤ 90)
    (hl : ∀ c ∈ l, 44 ≤ c ∧ c ≤ 90) : ∀ c ∈ a :: l, 44 ≤ c ∧ c ≤ 90 := by
  intro c hc
  rcases List.mem_cons.mp hc with rfl | h
  · exact ha
  · exact hl c h

theorem bounds_dec (x : Nat) : ∀ c ∈ natToDec x, 44 ≤ c ∧ c ≤ 90 := by
  intro c hc
  have := natToDec_digits x c hc
  omega

theorem payloadOf_bounds (m : Message) :
    ∀ c ∈ payloadOf m, 44 ≤ c ∧ c ≤ 90 := by
  obtain ⟨ty, p0, p1, p2⟩ := m
  cases ty
  case MESSAGE_NONE => intro c hc; simp [payloadOf] at hc
  case MESSAGE_CHA =>
    exact bounds_append (by decide) (bounds_cons (by decide) (bounds_dec _))
  case MESSAGE_ACC =>
    exact bounds_append (by decide) (bounds_cons (by decide) (bounds_dec _))
  case MESSAGE_REV =>
    exact bounds_append (by decide) (bounds_cons (by decide) (bounds_dec _))
  case MESSAGE_SHO =>
    exact bounds_append (by decide) (bounds_cons (by decide)
      (bounds_append (bounds_dec _) (bounds_cons (by decide) (bounds_dec _))))
  case MESSAGE_RES =>
    exact bounds_append (by decide) (bounds_cons (by decide)
      (bounds_append (bounds_dec _) (bounds_cons (by decide)
        (bounds_append (bounds_dec _)
          (bounds_cons (by decide) (bounds_dec _))))))

theorem payloadOf_safe (m : Message) :
    ∀ c ∈ payloadOf m, c ≠ 42 ∧ c ≠ 13 ∧ c ≠ 36 := by
  intro c hc
  have := payloadOf_bounds m c hc
  omega

theorem payloadOf_len (m : Message) : (payloadOf m).length ≤ 76 := by
  have l0 := natToDec_len 5 (m.param0 % 65536) (by omega) (by omega)
  have l1 := natToDec_len 5 (m.param1 % 65536) (by omega) (by omega)
  have l2 := natToDec_len 5 (m.param2 % 65536) (by omega) (by omega)
  obtain ⟨ty, p0, p1, p2⟩ := m
  simp only at l0 l1 l2
  cases ty <;>
    simp [payloadOf, tagCHA, tagACC, tagREV, tagSHO, tagRES] <;>
    omega

/-! ### Claim C3 -/

/-- Claim C3: feeding the bytes of `Message_Encode m` (for `m.type ≠ NONE`
with `uint16_t`-ranged parameters) one at a time through `Message_Decode`
from the idle decoder state produces an event per byte: NO_EVENT on every
byte before the last, and on the final byte exactly one event whose type
corresponds to `m.type` and whose template parameters equal `m`'s. -/
theorem c3_encode_decode_roundtrip (m : Message) (ev0 : BBEvent)
    (hne : m.type ≠ MESSAGE_NONE)
    (h0 : m.param0 < 65536) (h1 : m.param1 < 65536) (h2 : m.param2 < 65536) :
    (decodeRun dInit ev0 (Message_Encode m)).events.length =
      (Message_Encode m).length ∧
    (∀ e ∈ (decodeRun dInit ev0 (Message_Encode m)).events.dropLast,
      e.type = BB_EVENT_NO_EVENT) ∧
    ∃ e, (decodeRun dInit ev0 (Message_Encode m)).events.getLast? = some e ∧
      e.type = eventTypeFor m.type ∧ eventParamsMatch m e := by
  have hwrap : Message_Encode m = wrapFrame (payloadOf m) := by
    obtain ⟨ty, p0, p1, p2⟩ := m
    cases ty
    · exact absurd rfl hne
    all_goals simp [Message_Encode]
  rw [hwrap]
  rw [decode_wrapFrame (payloadOf m) ev0 (payloadOf_safe m) (payloadOf_len m)]
  rw [parse_payloadOf m hne h0 h1 h2 { ev0 with type := BB_EVENT_NO_EVENT }]
  simp only [if_true]
  refine ⟨?_, ?_, ?_⟩
  · simp [wrapFrame, hex2]
  · intro e he
    rw [List.dropLast_concat] at he
    rw [List.eq_of_mem_replicate he]
  · refine ⟨expectedEvent m { ev0 with type := BB_EVENT_NO_EVENT },
      ?_, ?_, ?_⟩
    · rw [List.getLast?_concat]
    · obtain ⟨ty, p0, p1, p2⟩ := m
      cases ty <;> simp [expectedEvent, eventTypeFor]
    · obtain ⟨ty, p0, p1, p2⟩ := m
      cases ty <;> simp [expectedEvent, eventParamsMatch]

/-- Witness for C3: the spec's worked example, the message `SHO(2, 9)`,
whose frame is `$SHO,2,9*5F\r\n`. -/
theorem c3_roundtrip_witness :
    (decodeRun dInit evInit (Message_Encode ⟨MESSAGE_SHO, 2, 9, 0⟩)).events.length =
      (Message_Encode ⟨MESSAGE_SHO, 2, 9, 0⟩).length ∧
    (∀ e ∈ (decodeRun dInit evInit
        (Message_Encode ⟨MESSAGE_SHO, 2, 9, 0⟩)).events.dropLast,
      e.type = BB_EVENT_NO_EVENT) ∧
    ∃ e, (decodeRun dInit evInit
        (Message_Encode ⟨MESSAGE_SHO, 2, 9, 0⟩)).events.getLast? = some e ∧
      e.type = eventTypeFor MESSAGE_SHO ∧
      eventParamsMatch ⟨MESSAGE_SHO, 2, 9, 0⟩ e :=
  c3_encode_decode_roundtrip ⟨MESSAGE_SHO, 2, 9, 0⟩ evInit
    (by decide) (by decide) (by decide) (by decide)

/-! ### Claim C8 -/

set_option maxHeartbeats 2000000 in
/-- Claim C8: for every state and event the state's branch does not react
to — reset excluded — `AgentRun` leaves the agent state and the stored
secrets and commitment unchanged and returns a `MESSAGE_NONE` message. -/
theorem c8_unhandled_events_are_ignored
    (fuel : Nat) (w : AgentWorld) (e : BBEvent)
    (hh : handledEvent w.agentState e.type = false)
    (hr : e.type ≠ BB_EVENT_RESET_BUTTON) :
    (AgentRun fuel w e).map
        (fun r => (r.1.agentState, r.1.A, r.1.B, r.1.hashA, r.2.1.type)) =
      some (w.agentState, w.A, w.B, w.hashA, MESSAGE_NONE) := by
  cases hs : w.agentState <;> cases ht : e.type <;>
    simp_all [AgentRun, handledEvent, msgNone] <;>
    (try (split <;> simp_all)) <;>
    (try exact ⟨_, _, ⟨rfl, rfl⟩, rfl, rfl, rfl, rfl, rfl⟩) <;>
    (try exact ⟨_, _, ⟨rfl, rfl⟩, hs, rfl, rfl, rfl, rfl⟩)

/-- Witness for C8: an ERROR event delivered in ACCEPTING. -/
theorem c8_unhandled_events_witness :
    (AgentRun 1 wBase ⟨BB_EVENT_ERROR, 0, 0, 0⟩).map
        (fun r => (r.1.agentState, r.1.A, r.1.B, r.1.hashA, r.2.1.type)) =
      some (wBase.agentState, wBase.A, wBase.B, wBase.hashA, MESSAGE_NONE) :=
  c8_unhandled_events_are_ignored 1 wBase ⟨BB_EVENT_ERROR, 0, 0, 0⟩
    (by decide) (by decide)

/-! ### Claim C9 -/

set_option maxHeartbeats 4000000 in
/-- Claim C9 (code bug): a RESET_BUTTON event does reset the agent state to
START, zero `A`, `B`, `hashA`, reinitialise both fields and return
`MESSAGE_NONE` — but it is not a *full* reinitialisation: the
`FieldAIDecideGuess` statics (which `Field.c`'s own comment says should be
reset when `FieldInit` is called), the last `own_guess`, and `turn_order`
all survive from the previous match.  Concretely, after reset the
surviving targeting statics make the next first guess `(1,3)` instead of
the fresh agent's `(0,0)`. -/
theorem c9_reset_leaves_ai_statics_and_guess :
    (AgentRun 1 wMid ⟨BB_EVENT_RESET_BUTTON, 0, 0, 0⟩).map
        (fun r => (r.1.agentState, r.1.A, r.1.B, r.1.hashA,
          r.1.turn_counter, r.2.1.type)) =
      some (AGENT_STATE_START, 0, 0, 0, 0, MESSAGE_NONE) ∧
    (AgentRun 1 wMid ⟨BB_EVENT_RESET_BUTTON, 0, 0, 0⟩).map
        (fun r => (r.1.ownField, r.1.oppField)) =
      some (FieldInit.1, FieldInit.2) ∧
    (AgentRun 1 wMid ⟨BB_EVENT_RESET_BUTTON, 0, 0, 0⟩).map
        (fun r => (r.1.aiState, r.1.own_guess)) =
      some (wMid.aiState, wMid.own_guess) ∧
    wMid.aiState ≠ aiInit ∧
    wMid.own_guess ≠ ⟨0, 0, 0⟩ ∧
    (AgentRun 1 wMid ⟨BB_EVENT_RESET_BUTTON, 0, 0, 0⟩).map
        (fun r => (FieldAIDecideGuess r.1.aiState r.1.oppField).2.row) =
      some 1 ∧
    (FieldAIDecideGuess aiInit FieldInit.2).2.row = 0 := by
  decide

end BattleBoats
